import Mathlib

/-!
# ProFTPD connection layer (`src/inet.c`)

A shallow embedding of the functions of `src/inet.c` and the properties of
them that the specification states.

Conventions of the embedding.

* C `int` values are `Int`; flag words are 32-bit naturals.
* A `conn_t` is passed by value and returned updated (the C code mutates
  `*c`); what its pointer fields point to lives in `World.heap`, a list of
  cells whose index is the address, so that aliasing can be observed.
* System calls are answered by an environment `Env`: the `n`-th call of a
  kind gets `E.sys kind n`.  Every call is appended to `World.trace`.
* Calls whose status the source discards (`setsockopt`, `close`, `dup2`,
  `fflush`, `timer_sleep`, ...) are logged only.
* Loops that can spin for ever on `EINTR` take a fuel argument and give
  `Outcome.spin` when it runs out.
-/

namespace Inet

/-! ## Constants -/

/-- Value of `EINTR` in `<errno.h>` (Linux numbering; only distinctness is used). -/
def EINTR : Int := 4
/-- Value of `EBADF` in `<errno.h>`. -/
def EBADF : Int := 9
/-- Value of `EWOULDBLOCK` in `<errno.h>`. -/
def EWOULDBLOCK : Int := 11
/-- Value of `EADDRINUSE` in `<errno.h>`. -/
def EADDRINUSE : Int := 98
/-- Value of `EALREADY` in `<errno.h>`. -/
def EALREADY : Int := 114
/-- Value of `EINPROGRESS` in `<errno.h>`. -/
def EINPROGRESS : Int := 115

/-- Modelled from the spec: the macro `INPORT_ANY` of the missing header, the
port value meaning "any" (the source comment at the `getsockname` call reads
`INPORT_ANY (0)`). -/
def INPORT_ANY : Int := 0
/-- Value of `INADDR_ANY`. -/
def INADDR_ANY : Nat := 0
/-- Value of `STDOUT_FILENO`. -/
def STDOUT_FILENO : Int := 1
/-- Value of `O_NONBLOCK` in `<fcntl.h>` (Linux numbering). -/
def O_NONBLOCK : Nat := 2048
/-- Modelled from the spec: the macro `U32BITS` of the missing header, a word
of 32 one bits. -/
def U32BITS : Nat := 0xffffffff

/-- Modelled from the spec: the connection modes `CM_*` of the missing header
(section 3 of the spec: Listening, Connecting, Accepting, Open, Error and the
zero value a freshly `pcalloc`ed record has). -/
inductive Mode
  | CM_NONE
  | CM_LISTEN
  | CM_OPEN
  | CM_ACCEPT
  | CM_CONNECT
  | CM_ERROR
  deriving DecidableEq, Repr

open Mode

/-- Build target: which of the `#ifdef` branches of the source are compiled. -/
inductive Platform
  | solaris2
  | bsd
  | other
  deriving DecidableEq, Repr

/-! ## Environment and world -/

/-- Kinds of system call whose result the source inspects. -/
inductive Sys
  | socket
  | bind
  | listen
  | connect
  | accept
  | getsockopt
  | getfl
  | setfl
  | dup
  | getsockname
  | getpeername
  deriving DecidableEq, Repr

/-- Result of a system call: a non-negative value, or failure with an errno. -/
inductive SysRes
  | ok (v : Int)
  | fail (e : Int)
  deriving DecidableEq, Repr

/-- Socket options the source touches. -/
inductive SockOpt
  | SO_REUSEADDR
  | SO_KEEPALIVE
  | SO_LINGER
  | SO_SNDBUF
  | SO_RCVBUF
  deriving DecidableEq, Repr

/-- Direction of a buffered stream. -/
inductive IOMode
  | IO_READ
  | IO_WRITE
  deriving DecidableEq, Repr

/-- Calls made by the code, as they appear in the trace. -/
inductive Event
  | block_signals
  | unblock_signals
  | PRIVS_ROOT
  | PRIVS_RELINQUISH
  | socket (proto : Int)
  | setsockopt (fd : Int) (opt : SockOpt) (val : Int)
  | getsockopt (fd : Int) (opt : SockOpt)
  | bind (fd : Int) (addr : Nat) (port : Int)
  | timer_sleep (secs : Int)
  | listen (fd : Int) (backlog : Int)
  | connect (fd : Int) (addr : Nat) (port : Int)
  | accept (fd : Int)
  | getsockname (fd : Int)
  | getpeername (fd : Int)
  | fcntl_getfl (fd : Int)
  | fcntl_setfl (fd : Int) (arg : Nat)
  | dup (fd : Int)
  | dup2 (oldfd : Int) (newfd : Int)
  | close (fd : Int)
  | fflush_stdout
  | io_open (fd : Int) (mode : IOMode)
  | io_close (fd : Int)
  | gethostbyaddr (addr : Nat)
  | register_cleanup (pool : Nat)
  | log_pri
  | end_login (code : Int)
  deriving DecidableEq, Repr

/-- A server record, as far as `inet_create_connection` reads it. -/
structure server_rec where
  ipaddr : Option Nat
  deriving DecidableEq, Repr

/-- What the surroundings of the code supply. -/
structure Env where
  /-- answer to the `n`-th call of each kind -/
  sys : Sys → Nat → SysRes
  /-- address and port (host order) filled in by the `n`-th successful
  `getsockname` / `getpeername` -/
  sockaddr : Sys → Nat → Nat × Int
  /-- `gethostbyaddr`: the `h_name` found for an address, if any -/
  hostbyaddr : Nat → Option (List Char)
  /-- what an automatic variable holds when nothing was stored in it -/
  junk : Int
  /-- the global `main_server` -/
  main_server : Option server_rec
  platform : Platform

/-- Contents of a heap cell. -/
inductive CellVal
  | in_addr (a : Nat)
  | str (s : List Char)
  | array (elts : List Nat)
  | iofile (fd : Int) (mode : IOMode)
  deriving DecidableEq, Repr

/-- A heap cell and the pool it was allocated from. -/
structure Cell where
  owner : Nat
  val : CellVal
  deriving DecidableEq, Repr

/-- Process state. -/
structure World where
  errno : Int
  /-- calls of each kind made so far -/
  calls : Sys → Nat
  trace : List Event
  heap : List Cell
  /-- parent of each pool; the index is the pool -/
  pools : List Nat
  /-- the static `inet_pool` -/
  inet_pool : Option Nat
  /-- the static `reverse_dns` -/
  reverse_dns : Int
  /-- the static `tcp_proto` -/
  tcp_proto : Int

/-- The global `permanent_pool`. -/
def permanent_pool : Nat := 0

/-- A world at process start: one pool, empty heap, nothing called yet. -/
def World.init : World :=
  { errno := 0, calls := fun _ => 0, trace := [], heap := [], pools := [0],
    inet_pool := none, reverse_dns := 1, tcp_proto := 6 }

/-- How a call ends. -/
inductive Outcome (α : Type)
  /-- the function returned -/
  | ret (a : α) (w : World)
  /-- `end_login` ended the process -/
  | fatal (code : Int) (w : World)
  /-- a NULL pointer was dereferenced -/
  | segv (w : World)
  /-- fuel ran out inside a retry loop -/
  | spin (w : World)

/-- The connection record `conn_t`. -/
structure conn_t where
  pool : Nat
  mode : Mode
  listen_fd : Int
  rfd : Int
  wfd : Int
  inf : Option Nat
  outf : Option Nat
  local_ipaddr : Option Nat
  local_port : Int
  remote_ipaddr : Option Nat
  remote_port : Int
  remote_name : Option Nat
  iplist : Option Nat
  niplist : Int
  sndbuf : Int
  rcvbuf : Int
  xerrno : Int
  deriving DecidableEq, Repr

/-- A record as `pcalloc` hands it out: every field zero. -/
def conn_t.zero : conn_t :=
  { pool := 0, mode := CM_NONE, listen_fd := 0, rfd := 0, wfd := 0, inf := none,
    outf := none, local_ipaddr := none, local_port := 0, remote_ipaddr := none,
    remote_port := 0, remote_name := none, iplist := none, niplist := 0,
    sndbuf := 0, rcvbuf := 0, xerrno := 0 }

/-- Append an event to the trace. -/
def World.log (w : World) (e : Event) : World :=
  { w with trace := w.trace ++ [e] }

/-- The C return value of a system call. -/
def SysRes.val : SysRes → Int
  | .ok v => v
  | .fail _ => -1

/-- Issue a system call of kind `k`: log it, count it, set `errno` on failure,
return its value. -/
def World.syscall (E : Env) (w : World) (k : Sys) (e : Event) : Int × World :=
  let r := E.sys k (w.calls k)
  let w1 : World :=
    { w with calls := fun j => if j = k then w.calls k + 1 else w.calls j,
             trace := w.trace ++ [e] }
  match r with
  | .ok v => (v, w1)
  | .fail err => (-1, { w1 with errno := err })

/-! ## Pools and heap -/

/-- Pool library `make_sub_pool`: a new pool whose parent is `p`. -/
def make_sub_pool (p : Nat) (w : World) : Nat × World :=
  (w.pools.length, { w with pools := w.pools ++ [p] })

/-- Pool library `palloc` / `pcalloc`: a fresh cell in `pool`. -/
def palloc (pool : Nat) (v : CellVal) (w : World) : Nat × World :=
  (w.heap.length, { w with heap := w.heap ++ [{ owner := pool, val := v }] })

/-- Store through a pointer. -/
def World.store (w : World) (p : Nat) (v : CellVal) : World :=
  { w with heap := w.heap.modify (fun c => { c with val := v }) p }

/-- Read an address through a pointer. -/
def World.addr_at (w : World) (p : Nat) : Nat :=
  match w.heap.get? p with
  | some ⟨_, .in_addr a⟩ => a
  | _ => 0

/-- Read a character buffer through a pointer. -/
def World.str_at (w : World) (p : Nat) : List Char :=
  match w.heap.get? p with
  | some ⟨_, .str s⟩ => s
  | _ => []

/-- Read the elements of an array through a pointer. -/
def World.array_at (w : World) (p : Nat) : List Nat :=
  match w.heap.get? p with
  | some ⟨_, .array xs⟩ => xs
  | _ => []

/-- Read the descriptor of a stream through a pointer. -/
def World.fd_at (w : World) (p : Nat) : Int :=
  match w.heap.get? p with
  | some ⟨_, .iofile fd _⟩ => fd
  | _ => -1

/-- The NUL character. -/
def NUL : Char := Char.ofNat 0

/-- The C string held by a buffer: its characters up to the first NUL. -/
def cstr (buf : List Char) : List Char :=
  buf.takeWhile (fun c => c != NUL)

/-- Pool library `pstrdup`: a copy of the C string in a fresh cell. -/
def pstrdup (pool : Nat) (s : List Char) (w : World) : Nat × World :=
  palloc pool (.str (cstr s)) w

/-- Pool library `copy_array`: a fresh array with the same elements. -/
def copy_array (pool : Nat) (arr : Nat) (w : World) : Nat × World :=
  palloc pool (.array (w.array_at arr)) w

/-! ## Address utilities -/

/-- C library `isalnum` in the "C" locale. -/
def isalnum (c : Char) : Bool :=
  let n := c.toNat
  (decide (48 ≤ n) && decide (n ≤ 57)) || (decide (65 ≤ n) && decide (n ≤ 90)) ||
    (decide (97 ≤ n) && decide (n ≤ 122))

/-- The `for` loop of `inet_validate`, over the buffer `p` points into. -/
def inet_validate_loop : List Char → List Char
  | [] => []
  | p :: rest =>
    if p = NUL then p :: rest
    else
      (if !isalnum p && p != '.' && p != '-' then '_' else p) :: inet_validate_loop rest

/-- Source `inet_validate`: `none` is the NULL pointer. -/
def inet_validate (buf : Option (List Char)) : Option (List Char) :=
  match buf with
  | none => none
  | some b => some (inet_validate_loop b)

/-- C library `inet_ntoa`: dotted-quad text of an address. -/
def inet_ntoa (a : Nat) : List Char :=
  (Nat.repr (a / 16777216 % 256)).toList ++ '.' :: (Nat.repr (a / 65536 % 256)).toList ++
    '.' :: (Nat.repr (a / 256 % 256)).toList ++ '.' :: (Nat.repr (a % 256)).toList

/-- Source `inet_getname`: the name of an address, validated in place. -/
def inet_getname (E : Env) (pool : Nat) (addr : Nat) (w : World) : Nat × World :=
  let (host, w) :=
    if w.reverse_dns != 0 then (E.hostbyaddr addr, w.log (.gethostbyaddr addr))
    else (none, w)
  let (res, w) :=
    match host with
    | none => pstrdup pool (inet_ntoa addr) w
    | some h_name => pstrdup pool h_name w
  (res, w.store res (.str (inet_validate_loop (w.str_at res))))

/-! ## Socket tuning -/

/-- A C `int` seen as a 32-bit word. -/
def u32 (x : Int) : Nat := (x % 4294967296).toNat

/-- The call `getsockopt(fd, SOL_SOCKET, opt, &cur, &len)`: the value `cur`
holds afterwards, which is the option value on success and whatever the
variable held when the call fails. -/
def getsockopt_int (E : Env) (fd : Int) (opt : SockOpt) (w : World) : Int × World :=
  let w1 : World :=
    { w with calls := fun j => if j = Sys.getsockopt then w.calls .getsockopt + 1 else w.calls j,
             trace := w.trace ++ [.getsockopt fd opt] }
  match E.sys .getsockopt (w.calls .getsockopt) with
  | .ok v => (v, w1)
  | .fail err => (E.junk, { w1 with errno := err })

/-- The block `if(c->wfd != -1)` of `inet_setoptions`. -/
def setoptions_wfd (E : Env) (c : conn_t) (sndbuf : Int) (w : World) : conn_t × World :=
  let no_keep_alive : Int := 0
  if c.wfd != -1 then
    let w := w.log (.setsockopt c.wfd .SO_KEEPALIVE no_keep_alive)
    let w := w.log (.setsockopt c.wfd .SO_LINGER 0)
    let (csndbuf, w) := getsockopt_int E c.wfd .SO_SNDBUF w
    let w :=
      if sndbuf != 0 && decide (sndbuf > csndbuf) then
        w.log (.setsockopt c.wfd .SO_SNDBUF sndbuf)
      else w
    ({ c with sndbuf := if sndbuf != 0 then sndbuf else csndbuf }, w)
  else (c, w)

/-- The block `if(c->rfd != -1)` of `inet_setoptions`; its `SO_LINGER` call
names `c->wfd`, as in the source. -/
def setoptions_rfd (E : Env) (c : conn_t) (rcvbuf : Int) (w : World) : conn_t × World :=
  let no_keep_alive : Int := 0
  if c.rfd != -1 then
    let w := w.log (.setsockopt c.rfd .SO_KEEPALIVE no_keep_alive)
    let w := w.log (.setsockopt c.wfd .SO_LINGER 0)
    let (crcvbuf, w) := getsockopt_int E c.rfd .SO_RCVBUF w
    let w :=
      if rcvbuf != 0 && decide (rcvbuf > crcvbuf) then
        w.log (.setsockopt c.rfd .SO_RCVBUF rcvbuf)
      else w
    ({ c with rcvbuf := if rcvbuf != 0 then rcvbuf else crcvbuf }, w)
  else (c, w)

/-- Source `inet_setoptions`. -/
def inet_setoptions (E : Env) (c : conn_t) (rcvbuf sndbuf : Int) (w : World) :
    Int × conn_t × World :=
  let (c, w) := setoptions_wfd E c sndbuf w
  let (c, w) := setoptions_rfd E c rcvbuf w
  (0, c, w)

/-- Source `inet_setnonblock`. -/
def inet_setnonblock (E : Env) (c : conn_t) (w : World) : Int × World :=
  let res : Int := -1
  let w := { w with errno := EBADF }
  if c.mode = CM_LISTEN then
    let (flags, w) := w.syscall E .getfl (.fcntl_getfl c.listen_fd)
    w.syscall E .setfl (.fcntl_setfl c.listen_fd (u32 flags ||| O_NONBLOCK))
  else
    let (res, w) :=
      if c.rfd != -1 then
        let (flags, w) := w.syscall E .getfl (.fcntl_getfl c.rfd)
        w.syscall E .setfl (.fcntl_setfl c.rfd (u32 flags ||| O_NONBLOCK))
      else (res, w)
    if c.wfd != -1 then
      let (_, w) := w.syscall E .getfl (.fcntl_getfl c.wfd)
      -- the second call on wfd is again F_GETFL in the source
      w.syscall E .getfl (.fcntl_getfl c.wfd)
    else (res, w)

/-- Source `inet_setblock`. -/
def inet_setblock (E : Env) (c : conn_t) (w : World) : Int × World :=
  let res : Int := -1
  let w := { w with errno := EBADF }
  if c.mode = CM_LISTEN then
    let (flags, w) := w.syscall E .getfl (.fcntl_getfl c.listen_fd)
    w.syscall E .setfl (.fcntl_setfl c.listen_fd (u32 flags &&& (U32BITS ^^^ O_NONBLOCK)))
  else
    let (res, w) :=
      if c.rfd != -1 then
        let (flags, w) := w.syscall E .getfl (.fcntl_getfl c.rfd)
        w.syscall E .setfl (.fcntl_setfl c.rfd (u32 flags &&& (U32BITS ^^^ O_NONBLOCK)))
      else (res, w)
    if c.wfd != -1 then
      let (flags, w) := w.syscall E .getfl (.fcntl_getfl c.wfd)
      w.syscall E .setfl (.fcntl_setfl c.wfd (u32 flags &&& (U32BITS ^^^ O_NONBLOCK)))
    else (res, w)

/-! ## Connection object -/

/-- Source `inet_get_conn_info`. -/
def inet_get_conn_info (E : Env) (c : conn_t) (fd : Int) (w : World) :
    Int × conn_t × World :=
  let n := w.calls .getsockname
  let (r, w) := w.syscall E .getsockname (.getsockname fd)
  if r != -1 then
    let (p, w) :=
      match c.local_ipaddr with
      | none => palloc c.pool (.in_addr 0) w
      | some p => (p, w)
    let w := w.store p (.in_addr (E.sockaddr .getsockname n).1)
    let c := { c with local_ipaddr := some p, local_port := (E.sockaddr .getsockname n).2 }
    let m := w.calls .getpeername
    let (r, w) := w.syscall E .getpeername (.getpeername fd)
    if r != -1 then
      let (q, w) := palloc c.pool (.in_addr 0) w
      let w := w.store q (.in_addr (E.sockaddr .getpeername m).1)
      (0, { c with remote_ipaddr := some q, remote_port := (E.sockaddr .getpeername m).2 }, w)
    else (-1, c, w)
  else (-1, c, w)

/-- Modelled from the spec: `io_close` of the missing stream library, which
closes the stream; the trace records the descriptor the stream wraps. -/
def io_close (f : Nat) (w : World) : World :=
  w.log (.io_close (w.fd_at f))

/-- Modelled from the spec: `io_open` of the missing stream library, which
returns a new stream over a descriptor. -/
def io_open (pool : Nat) (fd : Int) (mode : IOMode) (w : World) : Nat × World :=
  palloc pool (.iofile fd mode) (w.log (.io_open fd mode))

/-- Source `_conn_cleanup`. -/
def _conn_cleanup (c : conn_t) (w : World) : World :=
  let w := match c.inf with
    | some f => io_close f w
    | none => w
  let w := match c.outf with
    | some f => if c.outf != c.inf then io_close f w else w
    | none => w
  let w := if c.listen_fd != -1 then w.log (.close c.listen_fd) else w
  let w := if c.rfd != -1 then w.log (.close c.rfd) else w
  let w := if c.wfd != -1 then w.log (.close c.wfd) else w
  w

/-- One deep-copy step of `inet_copy_connection`: when the source pointer is
not NULL, a fresh cell of `pool` receives the value `rd` reads through it and
the copy points at that cell; a NULL pointer stays NULL. -/
def copy_cell (pool : Nat) (src : Option Nat) (rd : World → Nat → CellVal) (w : World) :
    Option Nat × World :=
  match src with
  | some a =>
    let (q, w1) := palloc pool (rd w a) w
    (some q, w1)
  | none => (none, w)

/-- Source `inet_copy_connection`. -/
def inet_copy_connection (p : Nat) (c : conn_t) (w : World) : conn_t × World :=
  let (subpool, w) := make_sub_pool p w
  -- memcpy(res,c,sizeof(conn_t))
  let res : conn_t := { c with pool := subpool, inf := none, outf := none }
  let (q, w) := copy_cell res.pool c.local_ipaddr (fun w a => .in_addr (w.addr_at a)) w
  let res := { res with local_ipaddr := q }
  let (q, w) := copy_cell res.pool c.remote_ipaddr (fun w a => .in_addr (w.addr_at a)) w
  let res := { res with remote_ipaddr := q }
  -- pstrdup(res->pool,c->remote_name)
  let (q, w) := copy_cell res.pool c.remote_name (fun w s => .str (cstr (w.str_at s))) w
  let res := { res with remote_name := q }
  -- copy_array(subpool,c->iplist)
  let (q, w) := copy_cell subpool c.iplist (fun w l => .array (w.array_at l)) w
  let res := { res with iplist := q }
  (res, w.log (.register_cleanup res.pool))

/-- The list of descriptors a trace closes, stream closes counted by the
descriptor they wrap. -/
def closes (tr : List Event) : List Int :=
  tr.filterMap fun e =>
    match e with
    | .close fd => some fd
    | .io_close fd => some fd
    | _ => none

/-- The first part of `inet_openrw`: the connection is copied and its
remote address and name are filled in.  The source dereferences
`res->remote_ipaddr` to print it when no name is known. -/
def openrw_remote (E : Env) (pool : Nat) (c : conn_t) (addr : Option Nat) (fd : Int)
    (resolve : Int) (w : World) : Outcome conn_t :=
  let (res, w) := inet_copy_connection pool c w
  let res := { res with listen_fd := -1 }
  let (_, res, w) := inet_get_conn_info E res fd w
  let (res, w) :=
    match addr with
    | some a =>
      let (q, w) :=
        match res.remote_ipaddr with
        | none => palloc res.pool (.in_addr 0) w
        | some q => (q, w)
      ({ res with remote_ipaddr := some q }, w.store q (.in_addr a))
    | none => (res, w)
  let (res, w) :=
    match res.remote_ipaddr with
    | some q =>
      if resolve != 0 then
        let (nm, w) := inet_getname E res.pool (w.addr_at q) w
        ({ res with remote_name := some nm }, w)
      else (res, w)
    | none => (res, w)
  match res.remote_name with
  | some _ => .ret res w
  | none =>
    match res.remote_ipaddr with
    | none => .segv w
    | some q =>
      let (nm, w) := pstrdup res.pool (inet_ntoa (w.addr_at q)) w
      .ret { res with remote_name := some nm } w

/-- The second part of `inet_openrw`: the read and write descriptors are
arranged and the original socket is discarded; gives the final `rfd` and
`wfd`. -/
def openrw_fds (E : Env) (c : conn_t) (fd rfd wfd : Int) (w : World) : Int × Int × World :=
  let close_fd := true
  let fd := if fd == -1 && c.listen_fd != -1 then c.listen_fd else fd
  let (rfd, close_fd, w) :=
    if rfd != -1 then
      if fd != rfd then (rfd, close_fd, w.log (.dup2 fd rfd))
      else (rfd, false, w)
    else
      let (r, w) := w.syscall E .dup (.dup fd)
      (r, close_fd, w)
  let (wfd, close_fd, w) :=
    if wfd != -1 then
      if fd != wfd then
        let w := if wfd == STDOUT_FILENO then w.log .fflush_stdout else w
        (wfd, close_fd, w.log (.dup2 fd wfd))
      else (wfd, false, w)
    else
      let (r, w) := w.syscall E .dup (.dup fd)
      (r, close_fd, w)
  -- Now discard the original socket
  let w := if rfd != -1 && wfd != -1 && close_fd then w.log (.close fd) else w
  (rfd, wfd, w)

/-- The last part of `inet_openrw`: the streams are opened, the options are
set, blocking mode is forced, the mode becomes `CM_OPEN`. -/
def openrw_streams (E : Env) (res : conn_t) (w : World) : conn_t × World :=
  let (f, w) := io_open res.pool res.rfd .IO_READ w
  let res := { res with inf := some f }
  let (g, w) := io_open res.pool res.wfd .IO_WRITE w
  let res := { res with outf := some g }
  -- Set options on the sockets
  let (_, res, w) := inet_setoptions E res 0 0 w
  let (_, w) := inet_setblock E res w
  ({ res with mode := CM_OPEN }, w)

/-- Source `inet_openrw`; `addr` is the pointee of the C argument. -/
def inet_openrw (E : Env) (pool : Nat) (c : conn_t) (addr : Option Nat) (fd rfd wfd : Int)
    (resolve : Int) (w : World) : Outcome conn_t :=
  match openrw_remote E pool c addr fd resolve w with
  | .ret res w =>
    let (rfd, wfd, w) := openrw_fds E c fd rfd wfd w
    let res := { res with rfd := rfd, wfd := wfd }
    let (res, w) := openrw_streams E res w
    .ret res w
  | .fatal code w => .fatal code w
  | .segv w => .segv w
  | .spin w => .spin w

/-! ## Lifecycle engine -/

/-- The test `port != INPORT_ANY && port < 1024` of the source. -/
def privileged (port : Int) : Bool :=
  port != INPORT_ANY && decide (port < 1024)

/-- The pair `block_signals(); PRIVS_ROOT`. -/
def priv_enter (w : World) : World :=
  (w.log .block_signals).log .PRIVS_ROOT

/-- The pair `PRIVS_RELINQUISH; unblock_signals()`. -/
def priv_leave (w : World) : World :=
  (w.log .PRIVS_RELINQUISH).log .unblock_signals

/-- The `for` loop of `inet_prebind_socket`; gives `res` and the world. -/
def prebind_loop (E : Env) (s : Int) (addr : Nat) (port : Int) :
    Nat → Int → Int → World → Int × World
  | 0, _, res, w => (res, w)
  | fuel + 1, tries, res, w =>
    if tries < 10 then
      let (r, w) := w.syscall E .bind (.bind s addr (port % 65536))
      if r ≥ 0 then (s, w)
      else if w.errno != EADDRINUSE then (res, w)
      else
        let w := if privileged port then priv_leave w else w
        let w := w.log (.timer_sleep tries)
        let w := if privileged port then priv_enter w else w
        prebind_loop E s addr port fuel (tries + 1) res w
    else (res, w)

/-- Source `inet_prebind_socket`; `bind_addr` is the pointee of the C argument. -/
def inet_prebind_socket (E : Env) (bind_addr : Option Nat) (port : Int) (w : World) :
    Int × World :=
  let res : Int := -1
  let w := if E.platform = .solaris2 && privileged port then priv_enter w else w
  let (s, w) := w.syscall E .socket (.socket 0)
  let w := if E.platform = .solaris2 && privileged port then priv_leave w else w
  if s < 0 then (-1, w)
  else
    let w := w.log (.setsockopt s .SO_REUSEADDR 1)
    let addr := match bind_addr with
      | none => INADDR_ANY
      | some a => a
    let w := if privileged port then priv_enter w else w
    let (res, w) := prebind_loop E s addr port 10 1 res w
    let save_errno := w.errno
    let w := if privileged port then priv_leave w else w
    (res, { w with errno := save_errno })

/-- The bind loop of `inet_create_connection`; gives `res`, `hold_errno` and
the world, or nothing when the fuel runs out. -/
def create_bind_loop (E : Env) (fd : Int) (addr : Nat) (port retry_bind : Int) :
    Nat → Int → Int → Int → World → Option (Int × Int × World)
  | 0, _, _, _, _ => none
  | fuel + 1, i, res, hold_errno, w =>
    if i != 0 then
      let (res, w) := w.syscall E .bind (.bind fd addr (port % 65536))
      let hold_errno := w.errno
      if res == -1 && w.errno == EINTR then
        -- i++; continue; and the i-- of the loop header
        create_bind_loop E fd addr port retry_bind fuel (i + 1 - 1) res hold_errno w
      else if res != -1 || w.errno != EADDRINUSE || (port != INPORT_ANY && retry_bind == 0) then
        some (res, hold_errno, w)
      else
        let w := if privileged port then priv_leave w else w
        let w := w.log (.timer_sleep 1)
        let w := if privileged port then priv_enter w else w
        create_bind_loop E fd addr port retry_bind fuel (i - 1) res hold_errno w
    else some (res, hold_errno, w)

/-- The macro `CHECK_INET_POOL` with `_create_inet_pool`. -/
def CHECK_INET_POOL (w : World) : Nat × World :=
  match w.inet_pool with
  | some ip => (ip, w)
  | none =>
    let (ip, w) := make_sub_pool permanent_pool w
    (ip, { w.log (.register_cleanup ip) with inet_pool := some ip })

/-- The addresses `inet_create_connection` pushes on its work array: those of
the servers of the set, or that of `main_server`; `none` when the latter has
a NULL `ipaddr`, which the source dereferences. -/
def accept_ips (E : Env) (servers : Option (List server_rec)) : Option (List Nat) :=
  match servers with
  | some (s :: rest) => some ((s :: rest).filterMap fun x => x.ipaddr)
  | _ =>
    match E.main_server with
    | some m => m.ipaddr.map fun a => [a]
    | none => none

/-- The end of `inet_create_connection`: `c->listen_fd = fd`, the cleanup
is registered, `c` is returned. -/
def create_finish (c : conn_t) (fd : Int) (w : World) : Outcome (Option conn_t) :=
  .ret (some { c with listen_fd := fd }) (w.log (.register_cleanup c.pool))

/-- The part of `inet_create_connection` that follows the bind loop, `res`
being the status of the last `bind`. -/
def create_after_bind (E : Env) (c : conn_t) (fd port res : Int) (w : World) :
    Outcome (Option conn_t) :=
  if res == -1 then
    let w := if privileged port then priv_leave w else w
    let w := ((w.log .log_pri).log .log_pri).log .log_pri
    .fatal 1 (w.log (.end_login 1))
  else
    let w := if privileged port then priv_leave w else w
    let n := w.calls .getsockname
    let (r, w) := w.syscall E .getsockname (.getsockname fd)
    if r != -1 then
      let (q, w) :=
        match c.local_ipaddr with
        | none => palloc c.pool (.in_addr 0) w
        | some q => (q, w)
      let w := w.store q (.in_addr (E.sockaddr .getsockname n).1)
      create_finish { c with local_ipaddr := some q,
                             local_port := (E.sockaddr .getsockname n).2 } fd w
    else create_finish c fd w

/-- The part of `inet_create_connection` run when `fd == -1`: a socket is
created and bound. -/
def create_socket (E : Env) (fuel : Nat) (c : conn_t) (bind_addr : Option Nat)
    (port retry_bind : Int) (w : World) : Outcome (Option conn_t) :=
  let one : Int := 1
  let root_socket : Bool := match E.platform with
    | .solaris2 => privileged port
    | .bsd => true
    | .other => false
  let w := if root_socket then priv_enter w else w
  let (fd, w) := w.syscall E .socket (.socket w.tcp_proto)
  let w := if root_socket then priv_leave w else w
  if fd == -1 then
    .fatal 1 ((w.log .log_pri).log (.end_login 1))
  else
    let w := w.log (.setsockopt fd .SO_REUSEADDR one)
    let addr := match bind_addr with
      | some a => a
      | none => INADDR_ANY
    let w := if privileged port then priv_enter w else w
    match create_bind_loop E fd addr port retry_bind fuel 10 0 0 w with
    | none => .spin w
    | some (res, _, w) => create_after_bind E c fd port res w

/-- Source `inet_create_connection`; `servers` is `none` for a NULL set and
holds the list `xas_list`, `bind_addr` is the pointee of the C argument. -/
def inet_create_connection (E : Env) (fuel : Nat) (p : Nat) (servers : Option (List server_rec))
    (fd : Int) (bind_addr : Option Nat) (port retry_bind : Int) (w : World) :
    Outcome (Option conn_t) :=
  let (ip, w) := CHECK_INET_POOL w
  let no_servers : Bool := match servers with
    | some (_ :: _) => false
    | _ => true
  if no_servers && E.main_server.isNone then .ret none w
  else
    let (tmp, w) := palloc ip (.array []) w
    let (subpool, w) := make_sub_pool p w
    let c : conn_t := { conn_t.zero with pool := subpool }
    match accept_ips E servers with
    | none => .segv w
    | some ips =>
      let w := w.store tmp (.array ips)
      let c := { c with local_port := port }
      let (l, w) := copy_array c.pool tmp w
      let c := { c with iplist := some l, niplist := (w.array_at l).length }
      let c := { c with rfd := -1, wfd := -1 }
      -- If fd == -1, there is no currently open socket, so create one
      if fd == -1 then create_socket E fuel c bind_addr port retry_bind w
      else create_finish c fd w

/-- The `while(1)` loop of `inet_listen`. -/
def listen_loop (E : Env) (c : conn_t) (backlog : Int) :
    Nat → World → Outcome (Int × Option conn_t)
  | 0, w => .spin w
  | fuel + 1, w =>
    let (r, w) := w.syscall E .listen (.listen c.listen_fd backlog)
    if r == -1 then
      if w.errno == EINTR then listen_loop E c backlog fuel w
      else .fatal 1 ((w.log .log_pri).log (.end_login 1))
    else .ret (0, some { c with mode := CM_LISTEN }) w

/-- Source `inet_listen`; `none` is the NULL connection. -/
def inet_listen (E : Env) (fuel : Nat) (c : Option conn_t) (backlog : Int) (w : World) :
    Outcome (Int × Option conn_t) :=
  match c with
  | none => .ret (-1, none) w
  | some c =>
    if c.mode = CM_LISTEN then .ret (-1, some c) w
    else listen_loop E c backlog fuel w

/-- Source `inet_resetlisten`. -/
def inet_resetlisten (E : Env) (c : conn_t) (w : World) : Int × conn_t × World :=
  let c := { c with mode := CM_LISTEN }
  let (_, w) := inet_setblock E c w
  (0, c, w)

/-- The `while` loop of `inet_connect`: the value of `ret` when it ends. -/
def connect_loop (E : Env) (fd : Int) (addr : Nat) (port : Int) :
    Nat → World → Option (Int × World)
  | 0, _ => none
  | fuel + 1, w =>
    let (ret, w) := w.syscall E .connect (.connect fd addr (port % 65536))
    if ret == -1 && w.errno == EINTR then connect_loop E fd addr port fuel w
    else some (ret, w)

/-- Source `inet_connect`; `addr` is the pointee of the C argument. -/
def inet_connect (E : Env) (fuel : Nat) (c : conn_t) (addr : Nat) (port : Int) (w : World) :
    Outcome (Int × conn_t) :=
  let (_, w) := inet_setblock E c w
  let c := { c with mode := CM_CONNECT }
  match connect_loop E c.listen_fd addr port fuel w with
  | none => .spin w
  | some (ret, w) =>
    if ret == -1 then
      .ret (-1, { c with mode := CM_ERROR, xerrno := w.errno }) w
    else
      let c := { c with mode := CM_OPEN }
      let (_, c, w) := inet_get_conn_info E c c.listen_fd w
      let (_, w) := inet_setblock E c w
      .ret (1, c) w

/-- Source `inet_connect_nowait`; `addr` is the pointee of the C argument. -/
def inet_connect_nowait (E : Env) (c : conn_t) (addr : Nat) (port : Int) (w : World) :
    Int × conn_t × World :=
  let (_, w) := inet_setnonblock E c w
  let c := { c with mode := CM_CONNECT }
  let (r, w) := w.syscall E .connect (.connect c.listen_fd addr (port % 65536))
  if r == -1 then
    if w.errno != EINPROGRESS && w.errno != EALREADY then
      (-1, { c with mode := CM_ERROR, xerrno := w.errno }, w)
    else (0, c, w)
  else
    let c := { c with mode := CM_OPEN }
    let (_, c, w) := inet_get_conn_info E c c.listen_fd w
    let (_, w) := inet_setblock E c w
    (1, c, w)

/-- Source `inet_accept_nowait`. -/
def inet_accept_nowait (E : Env) (c : conn_t) (w : World) : Int × conn_t × World :=
  let w := if c.mode = CM_LISTEN then (inet_setnonblock E c w).2 else w
  let c := { c with mode := CM_ACCEPT }
  let (fd, w) := w.syscall E .accept (.accept c.listen_fd)
  if fd == -1 then
    if w.errno != EWOULDBLOCK then
      (-1, { c with mode := CM_ERROR, xerrno := w.errno }, w)
    else (-1, { c with mode := CM_LISTEN, xerrno := 0 }, w)
  else
    let (_, w) := inet_setblock E c w
    (fd, c, w)

/-- Source `inet_accept`: the updated listener and the new connection, `none`
for NULL. -/
def inet_accept (E : Env) (pool : Nat) (c : conn_t) (rfd wfd : Int) (resolve : Int)
    (w : World) : Outcome (conn_t × Option conn_t) :=
  let c := { c with mode := CM_ACCEPT }
  let (newfd, w) := w.syscall E .accept (.accept c.listen_fd)
  if newfd != -1 then
    let c := { c with mode := CM_OPEN }
    match inet_openrw E pool c none newfd rfd wfd resolve w with
    | .ret res w => .ret (c, some res) w
    | .fatal code w => .fatal code w
    | .segv w => .segv w
    | .spin w => .spin w
  else
    .ret ({ c with mode := CM_ERROR, xerrno := w.errno }, none) w

/-! ## Specification-side vocabulary -/

/-- The character set `[A-Za-z0-9.-]` of the specification. -/
def in_charset (c : Char) : Prop :=
  ('A' ≤ c ∧ c ≤ 'Z') ∨ ('a' ≤ c ∧ c ≤ 'z') ∨ ('0' ≤ c ∧ c ≤ '9') ∨ c = '.' ∨ c = '-'

instance (c : Char) : Decidable (in_charset c) := by
  unfold in_charset; infer_instance

/-- What the specification says `sanitize` does to one character. -/
def sanitize_char (c : Char) : Char :=
  if in_charset c then c else '_'

/-- The world after one turn of the bind loop of `inet_create_connection` in
which `bind` failed with `err` and the loop slept. -/
def after_conflict (fd : Int) (addr : Nat) (port : Int) (err : Int) (w : World) : World :=
  let w : World :=
    { w with calls := fun j => if j = Sys.bind then w.calls .bind + 1 else w.calls j,
             trace := w.trace ++ [.bind fd addr (port % 65536)], errno := err }
  let w := if privileged port then priv_leave w else w
  let w := w.log (.timer_sleep 1)
  if privileged port then priv_enter w else w

/-- The world after `k` such turns. -/
def after_conflicts (fd : Int) (addr : Nat) (port : Int) (err : Int) : Nat → World → World
  | 0, w => w
  | k + 1, w => after_conflicts fd addr port err k (after_conflict fd addr port err w)

/-- What a call of each kind returns when it succeeds in the test
environments: descriptor 3 from `socket`, 4 from `accept`, 5, 6, ... from
`dup`, flags `O_RDWR` from `fcntl(F_GETFL)`, a buffer size of 65536 from
`getsockopt`, and 0 from the others. -/
def ok_value (s : Sys) (i : Nat) : Int :=
  match s with
  | .socket => 3
  | .accept => 4
  | .dup => 5 + i
  | .getfl => 2
  | .getsockopt => 65536
  | _ => 0

/-- A test environment: every call succeeds, except that the calls of kind
`k` with index below `n` fail with `err`; `main_server` is 127.0.0.1. -/
def env_failing (k : Sys) (n : Nat) (err : Int) : Env :=
  { sys := fun s i => if s = k ∧ i < n then .fail err else .ok (ok_value s i),
    sockaddr := fun _ _ => (2130706433, 2121),
    hostbyaddr := fun _ => none,
    junk := 0,
    main_server := some { ipaddr := some 2130706433 },
    platform := .other }

/-- The `setsockopt` calls of a trace that set option `opt`: descriptor and
value, in order. -/
def setcalls (opt : SockOpt) (tr : List Event) : List (Int × Int) :=
  tr.filterMap fun e =>
    match e with
    | .setsockopt fd o val => if o = opt then some (fd, val) else none
    | _ => none

/-- A connection over descriptor 3 for both directions, without streams. -/
def conn_on_3 : conn_t :=
  { conn_t.zero with listen_fd := -1, rfd := 3, wfd := 3, mode := CM_OPEN }

/-- Whether an event duplicates or closes a descriptor. -/
def is_fd_event : Event → Bool
  | .dup _ => true
  | .dup2 _ _ => true
  | .close _ => true
  | .io_close _ => true
  | _ => false

/-- The descriptor duplications and closes of a trace, in order. -/
def fdcalls (tr : List Event) : List Event :=
  tr.filter is_fd_event

/-- A step that neither duplicates nor closes a descriptor. -/
def quiet (w w1 : World) : Prop :=
  fdcalls w1.trace = fdcalls w.trace ∧ w1.calls .dup = w.calls .dup

/-- A listening connection on descriptor 3, as `inet_create_connection`
followed by `inet_listen` leaves it. -/
def listener_on_3 : conn_t :=
  { conn_t.zero with listen_fd := 3, rfd := -1, wfd := -1, mode := CM_LISTEN }

/-- The descriptors `_conn_cleanup` has to release, one entry per reference:
the descriptor wrapped by the input stream, that wrapped by the output stream
unless it is the very same stream, then `listen_fd`, `rfd` and `wfd` where
they are not -1. -/
def cleanup_targets (c : conn_t) (w : World) : List Int :=
  (match c.inf with
    | some f => [w.fd_at f]
    | none => []) ++
  (match c.outf with
    | some g => if c.outf = c.inf then [] else [w.fd_at g]
    | none => []) ++
  [c.listen_fd, c.rfd, c.wfd].filter (fun d => d != -1)

/-- Every pointer field of the connection points into the heap. -/
def conn_valid (c : conn_t) (w : World) : Prop :=
  (∀ a, c.local_ipaddr = some a → a < w.heap.length) ∧
  (∀ a, c.remote_ipaddr = some a → a < w.heap.length) ∧
  (∀ s, c.remote_name = some s → s < w.heap.length) ∧
  (∀ l, c.iplist = some l → l < w.heap.length)

/-- A connection with all four pointer fields set, and the heap it points
into: local 127.0.0.1, remote 10.0.0.2 named "peer", one bound address. -/
def conn_with_names : conn_t :=
  { conn_t.zero with listen_fd := 3, rfd := -1, wfd := -1, local_ipaddr := some 0,
                     remote_ipaddr := some 1, remote_name := some 2, iplist := some 3,
                     niplist := 1, local_port := 21, remote_port := 40000 }

/-- The heap `conn_with_names` points into. -/
def world_with_names : World :=
  { World.init with
    heap := [⟨0, .in_addr 2130706433⟩, ⟨0, .in_addr 167772162⟩, ⟨0, .str "peer".toList⟩,
             ⟨0, .array [2130706433]⟩] }

/-- The heap of `w1` is that of `w` with cells appended. -/
def grows (w w1 : World) : Prop :=
  ∃ ext, w1.heap = w.heap ++ ext

/-- The calls of `end_login` in a trace. -/
def fatal_calls (tr : List Event) : List Event :=
  tr.filter fun e =>
    match e with
    | .end_login _ => true
    | _ => false

/-- What `inet_connect` returns for the answer `r` of `connect`. -/
def connect_status (r : SysRes) : Int :=
  match r with
  | .fail _ => -1
  | .ok _ => 1

/-- The mode `inet_connect` leaves for the answer `r` of `connect`. -/
def connect_mode (r : SysRes) : Mode :=
  match r with
  | .fail _ => CM_ERROR
  | .ok _ => CM_OPEN

/-- How `inet_listen` ends for the answer `r` of `listen`, on connection `c`
in world `w1`. -/
def listen_outcome (c : conn_t) (r : SysRes) (w1 : World) : Outcome (Int × Option conn_t) :=
  match r with
  | .ok _ => .ret (0, some { c with mode := CM_LISTEN }) w1
  | .fail _ => .fatal 1 w1

/-- The durations of the `timer_sleep` calls of a trace, in order. -/
def sleeps (tr : List Event) : List Int :=
  tr.filterMap fun e =>
    match e with
    | .timer_sleep n => some n
    | _ => none

/-- The world after one turn of the loop of `inet_prebind_socket` in which
`bind` failed with `EADDRINUSE` and the loop slept `tries` seconds. -/
def after_prebind_conflict (s : Int) (addr : Nat) (port tries : Int) (w : World) : World :=
  let w : World :=
    { w with calls := fun j => if j = Sys.bind then w.calls .bind + 1 else w.calls j,
             trace := w.trace ++ [.bind s addr (port % 65536)], errno := EADDRINUSE }
  let w := if privileged port then priv_leave w else w
  let w := w.log (.timer_sleep tries)
  if privileged port then priv_enter w else w

/-- Where the process stands with respect to the privileged region: outside
it, signals blocked, privileges raised, privileges dropped again. -/
inductive PrivState
  | idle
  | blocked
  | elevated
  | dropped
  deriving DecidableEq, Repr

/-- What an event does to the privileged region when the port is privileged:
the four bracket events must come in the order block, elevate, drop, unblock;
`bind` needs raised privileges; `timer_sleep` and `end_login` need to be
outside the region; any other call is made outside the region or with raised
privileges, never between the two halves of a bracket.  `none` is a
violation. -/
def priv_step (s : PrivState) (e : Event) : Option PrivState :=
  match e, s with
  | .block_signals, .idle => some .blocked
  | .block_signals, _ => none
  | .PRIVS_ROOT, .blocked => some .elevated
  | .PRIVS_ROOT, _ => none
  | .PRIVS_RELINQUISH, .elevated => some .dropped
  | .PRIVS_RELINQUISH, _ => none
  | .unblock_signals, .dropped => some .idle
  | .unblock_signals, _ => none
  | .bind _ _ _, .elevated => some .elevated
  | .bind _ _ _, _ => none
  | .timer_sleep _, .idle => some .idle
  | .timer_sleep _, _ => none
  | .end_login _, .idle => some .idle
  | .end_login _, _ => none
  | _, .idle => some .idle
  | _, .elevated => some .elevated
  | _, _ => none

/-- Run a trace through `priv_step`. -/
def priv_run : PrivState → List Event → Option PrivState
  | s, [] => some s
  | s, e :: es =>
    match priv_step s e with
    | none => none
    | some s1 => priv_run s1 es

/-- The trace of `w` is well bracketed and leaves the process in state `s`. -/
def priv_at (w : World) (s : PrivState) : Prop :=
  priv_run .idle w.trace = some s

/-- The world an outcome leaves. -/
def Outcome.world {α : Type} : Outcome α → World
  | .ret _ w => w
  | .fatal _ w => w
  | .segv w => w
  | .spin w => w

/-- The state of the privileged region in which an outcome of
`inet_create_connection` leaves the process: outside it on every exit, with
raised privileges while the bind loop is still turning. -/
def Outcome.priv_state {α : Type} : Outcome α → PrivState
  | .spin _ => .elevated
  | _ => .idle

/-- An open connection as `inet_openrw` leaves it when both sides are
duplicated: read side on descriptor 5, write side on descriptor 6. -/
def conn_on_5_6 : conn_t :=
  { conn_t.zero with listen_fd := -1, rfd := 5, wfd := 6, mode := CM_OPEN }

/-- The flag words the `fcntl(fd, F_SETFL, arg)` calls of a trace set on
descriptor `fd`, in order. -/
def setfl_on (fd : Int) (tr : List Event) : List Nat :=
  tr.filterMap fun e =>
    match e with
    | .fcntl_setfl d arg => if d = fd then some arg else none
    | _ => none

/-- The file status flags of descriptor `fd` after a trace, `flags` being
those before it: the word of the last `F_SETFL` on `fd`, if there is one. -/
def flags_after (fd : Int) (flags : Nat) (tr : List Event) : Nat :=
  (setfl_on fd tr).getLast?.getD flags

/-- The listener on descriptor 3 after an `accept` on it has failed: its mode
is `CM_ERROR`. -/
def listener_in_error : conn_t :=
  { listener_on_3 with mode := CM_ERROR, xerrno := EBADF }

/-- Value of `ENOTCONN` in `<errno.h>`: what `getpeername` answers on a
socket whose peer is gone. -/
def ENOTCONN : Int := 107

/-- Value of `ECONNREFUSED` in `<errno.h>`. -/
def ECONNREFUSED : Int := 111

/-- A connection on socket 3 whose earlier `inet_connect` was refused: its
mode is `CM_ERROR`. -/
def connector_in_error : conn_t :=
  { conn_t.zero with listen_fd := 3, rfd := -1, wfd := -1, mode := CM_ERROR,
                     xerrno := ECONNREFUSED }

/-! ## Theorems -/

theorem isalnum_iff (c : Char) :
    isalnum c = true ↔ ('A' ≤ c ∧ c ≤ 'Z') ∨ ('a' ≤ c ∧ c ≤ 'z') ∨ ('0' ≤ c ∧ c ≤ '9') := by
  have h : ∀ d : Char, (d ≤ c ↔ d.toNat ≤ c.toNat) ∧ (c ≤ d ↔ c.toNat ≤ d.toNat) := by
    intro d
    constructor <;> exact Iff.rfl
  simp only [isalnum, Bool.or_eq_true, Bool.and_eq_true, decide_eq_true_eq, (h _).1, (h _).2]
  have e1 : ('A' : Char).toNat = 65 := rfl
  have e2 : ('Z' : Char).toNat = 90 := rfl
  have e3 : ('a' : Char).toNat = 97 := rfl
  have e4 : ('z' : Char).toNat = 122 := rfl
  have e5 : ('0' : Char).toNat = 48 := rfl
  have e6 : ('9' : Char).toNat = 57 := rfl
  rw [e1, e2, e3, e4, e5, e6]
  tauto

theorem validate_step (p : Char) :
    (if (!isalnum p && p != '.' && p != '-') = true then '_' else p) = sanitize_char p := by
  unfold sanitize_char in_charset
  by_cases h : isalnum p = true
  · have h2 := (isalnum_iff p).1 h
    have : ('A' ≤ p ∧ p ≤ 'Z') ∨ ('a' ≤ p ∧ p ≤ 'z') ∨ ('0' ≤ p ∧ p ≤ '9') ∨ p = '.' ∨ p = '-' := by
      tauto
    simp [h, this]
  · have h2 := mt (isalnum_iff p).2 h
    simp only [Bool.not_eq_true] at h
    by_cases a : p = '.'
    · subst a; simp
    · by_cases b : p = '-'
      · subst b; simp
      · have : ¬ (('A' ≤ p ∧ p ≤ 'Z') ∨ ('a' ≤ p ∧ p ≤ 'z') ∨ ('0' ≤ p ∧ p ≤ '9') ∨
            p = '.' ∨ p = '-') := by tauto
        rw [if_neg this]
        simp [h, a, b]

theorem sanitize_char_ne_NUL (p : Char) (h : p ≠ NUL) : sanitize_char p ≠ NUL := by
  unfold sanitize_char
  split
  · exact h
  · decide

theorem sanitize_char_in_charset (p : Char) : in_charset (sanitize_char p) ∨ sanitize_char p = '_' := by
  unfold sanitize_char
  split
  · left; assumption
  · right; rfl

theorem validate_loop_length (buf : List Char) :
    (inet_validate_loop buf).length = buf.length := by
  induction buf with
  | nil => rfl
  | cons p rest ih =>
    unfold inet_validate_loop
    split <;> simp [ih]

theorem validate_loop_cstr (buf : List Char) :
    cstr (inet_validate_loop buf) = (cstr buf).map sanitize_char := by
  induction buf with
  | nil => rfl
  | cons p rest ih =>
    unfold inet_validate_loop
    by_cases h : p = NUL
    · simp [h, cstr]
    · rw [if_neg h, validate_step]
      have h2 := sanitize_char_ne_NUL p h
      unfold cstr at ih ⊢
      simp [List.takeWhile_cons, h, h2, ih]

/-- C1: on every buffer `inet_validate` returns a buffer of the same length
whose C string is that of the input with each character of `[A-Za-z0-9.-]`
kept and every other character replaced by `_` (so both strings have the same
length); every character of the result string is in `[A-Za-z0-9._-]`; and
`"ev;il(host)"` becomes `"ev_il_host_"`. -/
theorem inet_validate_sanitizes (buf : List Char) :
    ∃ out, inet_validate (some buf) = some out ∧
      out.length = buf.length ∧
      cstr out = (cstr buf).map sanitize_char ∧
      (cstr out).length = (cstr buf).length ∧
      (∀ c ∈ cstr buf, (in_charset c → sanitize_char c = c) ∧
        (¬ in_charset c → sanitize_char c = '_')) ∧
      (∀ c ∈ cstr out, in_charset c ∨ c = '_') ∧
      inet_validate (some "ev;il(host)".toList) = some "ev_il_host_".toList := by
  refine ⟨inet_validate_loop buf, rfl, validate_loop_length buf, validate_loop_cstr buf, ?_, ?_, ?_,
    by decide⟩
  · rw [validate_loop_cstr]; simp
  · intro c _
    exact ⟨fun h => by simp [sanitize_char, h], fun h => by simp [sanitize_char, h]⟩
  · intro c hc
    rw [validate_loop_cstr] at hc
    obtain ⟨d, _, rfl⟩ := List.mem_map.1 hc
    exact sanitize_char_in_charset d

theorem syscall_fail (E : Env) (w : World) (k : Sys) (e : Event) (err : Int)
    (h : E.sys k (w.calls k) = .fail err) :
    w.syscall E k e =
      (-1, { w with calls := fun j => if j = k then w.calls k + 1 else w.calls j,
                    trace := w.trace ++ [e], errno := err }) := by
  simp [World.syscall, h]

theorem syscall_ok (E : Env) (w : World) (k : Sys) (e : Event) (v : Int)
    (h : E.sys k (w.calls k) = .ok v) :
    w.syscall E k e =
      (v, { w with calls := fun j => if j = k then w.calls k + 1 else w.calls j,
                   trace := w.trace ++ [e] }) := by
  simp [World.syscall, h]

theorem after_conflict_calls (fd : Int) (addr : Nat) (port err : Int) (w : World) :
    (after_conflict fd addr port err w).calls =
      fun j => if j = Sys.bind then w.calls .bind + 1 else w.calls j := by
  unfold after_conflict
  cases privileged port <;> rfl

theorem after_conflicts_calls_bind (fd : Int) (addr : Nat) (port err : Int) (k : Nat)
    (w : World) :
    (after_conflicts fd addr port err k w).calls .bind = w.calls .bind + k := by
  induction k generalizing w with
  | zero => rfl
  | succ k ih =>
    rw [after_conflicts, ih, after_conflict_calls]
    simp; omega

/-- One turn of the bind loop of `inet_create_connection` on `EADDRINUSE`
with retrying enabled: the loop goes on with `i - 1`. -/
theorem create_bind_loop_addrinuse (E : Env) (fd : Int) (addr : Nat) (port retry_bind : Int)
    (fuel : Nat) (i res hold : Int) (w : World)
    (hretry : retry_bind ≠ 0 ∨ port = INPORT_ANY) (hi : i ≠ 0)
    (hb : E.sys .bind (w.calls .bind) = .fail EADDRINUSE) :
    create_bind_loop E fd addr port retry_bind (fuel + 1) i res hold w =
      create_bind_loop E fd addr port retry_bind fuel (i - 1) (-1) EADDRINUSE
        (after_conflict fd addr port EADDRINUSE w) := by
  have hport : (port != INPORT_ANY && retry_bind == 0) = false := by
    rcases hretry with h | h
    · simp [h]
    · simp [h]
  rw [create_bind_loop]
  simp only [syscall_fail E w .bind _ _ hb]
  simp [hi, hport, EADDRINUSE, EINTR, after_conflict]

theorem create_bind_loop_conflicts (E : Env) (fd : Int) (addr : Nat) (port retry_bind : Int)
    (hretry : retry_bind ≠ 0 ∨ port = INPORT_ANY) (k : Nat) :
    ∀ (fuel : Nat) (i res hold : Int) (w : World), (k : Int) < i →
      (∀ j, j ≤ k → E.sys .bind (w.calls .bind + j) = .fail EADDRINUSE) →
      create_bind_loop E fd addr port retry_bind (fuel + (k + 1)) i res hold w =
        create_bind_loop E fd addr port retry_bind fuel (i - (k + 1)) (-1) EADDRINUSE
          (after_conflicts fd addr port EADDRINUSE (k + 1) w) := by
  induction k with
  | zero =>
    intro fuel i res hold w hi hb
    have h0 := hb 0 (le_refl 0)
    rw [Nat.add_zero] at h0
    have hi0 : i ≠ 0 := by omega
    simpa [after_conflicts] using
      create_bind_loop_addrinuse E fd addr port retry_bind fuel i res hold w hretry hi0 h0
  | succ k ih =>
    intro fuel i res hold w hi hb
    have h0 := hb 0 (Nat.zero_le _)
    rw [Nat.add_zero] at h0
    have hi0 : i ≠ 0 := by omega
    have e : fuel + (k + 1 + 1) = (fuel + (k + 1)) + 1 := by omega
    rw [e, create_bind_loop_addrinuse E fd addr port retry_bind _ i res hold w hretry hi0 h0,
      ih fuel (i - 1) (-1) EADDRINUSE _ (by push_cast at hi ⊢; omega)]
    · rw [after_conflicts]
      congr 1
      push_cast
      omega
    · intro j hj
      rw [after_conflict_calls]
      have := hb (j + 1) (by omega)
      simpa [Nat.add_assoc, Nat.add_comm 1 j] using this

theorem create_bind_loop_ok (E : Env) (fd : Int) (addr : Nat) (port retry_bind : Int)
    (fuel : Nat) (i res hold v : Int) (w : World) (hi : i ≠ 0) (hv : v ≠ -1)
    (hb : E.sys .bind (w.calls .bind) = .ok v) :
    create_bind_loop E fd addr port retry_bind (fuel + 1) i res hold w =
      some (v, w.errno,
        { w with calls := fun j => if j = Sys.bind then w.calls .bind + 1 else w.calls j,
                 trace := w.trace ++ [.bind fd addr (port % 65536)] }) := by
  rw [create_bind_loop]
  simp only [syscall_ok E w .bind _ _ hb]
  simp [hi, hv]

theorem create_bind_loop_done (E : Env) (fd : Int) (addr : Nat) (port retry_bind : Int)
    (fuel : Nat) (res hold : Int) (w : World) :
    create_bind_loop E fd addr port retry_bind (fuel + 1) 0 res hold w = some (res, hold, w) := by
  rw [create_bind_loop]
  simp

theorem create_after_bind_ok (E : Env) (c : conn_t) (fd port res : Int) (w : World)
    (hres : res ≠ -1) :
    ∃ c1 w1, create_after_bind E c fd port res w = .ret (some c1) w1 ∧ c1.listen_fd = fd ∧
      w1.calls .bind = w.calls .bind := by
  unfold create_after_bind create_finish
  simp only [beq_iff_eq, hres, if_false]
  cases hp : privileged port <;>
    cases hg : E.sys .getsockname ((priv_leave w).calls .getsockname) <;>
    cases hl : c.local_ipaddr <;>
    simp only [World.syscall, hg, hl, Bool.false_eq_true, if_false, if_true] <;>
    (try simp only [show w.calls .getsockname = (priv_leave w).calls .getsockname from rfl, hg]) <;>
    (try split) <;> exact ⟨_, _, rfl, rfl, rfl⟩

theorem create_after_bind_fail (E : Env) (c : conn_t) (fd port : Int) (w : World) :
    ∃ w1, create_after_bind E c fd port (-1) w = .fatal 1 w1 ∧
      w1.calls .bind = w.calls .bind ∧ w1.trace.getLast? = some (.end_login 1) := by
  unfold create_after_bind
  cases hp : privileged port <;> simp [priv_leave, World.log]

theorem create_socket_ok (E : Env) (fuel : Nat) (c : conn_t) (bind_addr : Option Nat)
    (port retry_bind s : Int) (w : World)
    (hsock : E.sys .socket (w.calls .socket) = .ok s) (hs : s ≠ -1) :
    ∃ w1 addr, w1.calls .bind = w.calls .bind ∧
      create_socket E fuel c bind_addr port retry_bind w =
        match create_bind_loop E s addr port retry_bind fuel 10 0 0 w1 with
        | none => .spin w1
        | some (res, _, w2) => create_after_bind E c s port res w2 := by
  unfold create_socket
  have h1 : ∀ b : Bool, E.sys .socket ((if b = true then priv_enter w else w).calls .socket) =
      .ok s := by
    intro b; cases b <;> simpa [priv_enter, World.log] using hsock
  simp only [World.syscall, h1, beq_iff_eq, hs, if_false]
  refine ⟨_, _, ?_, rfl⟩
  cases privileged port <;> cases E.platform <;> simp [priv_enter, priv_leave, World.log]

theorem create_reaches_socket (E : Env) (p : Nat) (servers : Option (List server_rec))
    (ips : List Nat) (bind_addr : Option Nat) (port retry_bind : Int) (w : World)
    (hips : accept_ips E servers = some ips) :
    ∃ c w0, w0.calls = w.calls ∧ ∀ fuel,
      inet_create_connection E fuel p servers (-1) bind_addr port retry_bind w =
        create_socket E fuel c bind_addr port retry_bind w0 := by
  have hcalls : ∀ (ip : Nat) (w1 : World), w1.calls = w.calls →
      ∀ (c : conn_t) (tmp : Nat) (v : CellVal),
      (copy_array c.pool tmp ((make_sub_pool p (palloc ip (.array []) w1).2).2.store tmp v)).2.calls
        = w.calls := by
    intro ip w1 h1 c tmp v
    simpa [palloc, make_sub_pool, copy_array, World.store] using h1
  have hpool : (CHECK_INET_POOL w).2.calls = w.calls := by
    unfold CHECK_INET_POOL
    cases w.inet_pool <;> simp [make_sub_pool, World.log]
  rcases servers with _ | (_ | ⟨s, rest⟩)
  · cases hm : E.main_server <;> simp only [accept_ips, hm] at hips
    · exact absurd hips (by simp)
    · unfold inet_create_connection
      simp only [accept_ips, hm, hips, Option.isNone_some, Bool.and_false, Bool.false_eq_true,
        if_false, beq_self_eq_true, if_true]
      exact ⟨_, _, hcalls _ _ hpool ⟨_, CM_NONE, 0, 0, 0, none, none, none, 0, none, 0, none,
        none, 0, 0, 0, 0⟩ _ _, fun fuel => rfl⟩
  · cases hm : E.main_server <;> simp only [accept_ips, hm] at hips
    · exact absurd hips (by simp)
    · unfold inet_create_connection
      simp only [accept_ips, hm, hips, Option.isNone_some, Bool.and_false, Bool.false_eq_true,
        if_false, beq_self_eq_true, if_true]
      exact ⟨_, _, hcalls _ _ hpool ⟨_, CM_NONE, 0, 0, 0, none, none, none, 0, none, 0, none,
        none, 0, 0, 0, 0⟩ _ _, fun fuel => rfl⟩
  · unfold inet_create_connection
    simp only [accept_ips] at hips
    simp only [accept_ips, hips, Bool.false_and, Bool.false_eq_true,
      if_false, beq_self_eq_true, if_true]
    exact ⟨_, _, hcalls _ _ hpool ⟨_, CM_NONE, 0, 0, 0, none, none, none, 0, none, 0, none,
      none, 0, 0, 0, 0⟩ _ _, fun fuel => rfl⟩

/-- C2: `inet_create_connection` with no descriptor given (`fd == -1`),
retrying enabled (`retry_bind` set or `port == INPORT_ANY`), a usable server
set and a socket obtained.  For every `k ≤ 9`, if `bind` fails with
`EADDRINUSE` `k` times and then succeeds, the function returns a connection
(listening descriptor = the socket) after exactly `k + 1` calls of `bind`;
if `bind` fails with `EADDRINUSE` ten times in a row the function ends in
`end_login(1)` after exactly ten calls of `bind`. -/
theorem create_bind_retry (E : Env) (fuel p : Nat) (servers : Option (List server_rec))
    (ips : List Nat) (bind_addr : Option Nat) (port retry_bind s : Int) (w : World)
    (hretry : retry_bind ≠ 0 ∨ port = INPORT_ANY)
    (hips : accept_ips E servers = some ips)
    (hsock : E.sys .socket (w.calls .socket) = .ok s) (hs : s ≠ -1)
    (hfuel : 10 < fuel) :
    (∀ k, k ≤ 9 →
      (∀ j, j < k → E.sys .bind (w.calls .bind + j) = .fail EADDRINUSE) →
      E.sys .bind (w.calls .bind + k) = .ok 0 →
      ∃ c w1, inet_create_connection E fuel p servers (-1) bind_addr port retry_bind w =
          .ret (some c) w1 ∧ c.listen_fd = s ∧ w1.calls .bind = w.calls .bind + (k + 1)) ∧
    ((∀ j, j < 10 → E.sys .bind (w.calls .bind + j) = .fail EADDRINUSE) →
      ∃ w1, inet_create_connection E fuel p servers (-1) bind_addr port retry_bind w =
          .fatal 1 w1 ∧ w1.calls .bind = w.calls .bind + 10 ∧
          w1.trace.getLast? = some (.end_login 1)) := by
  obtain ⟨c0, w0, hw0, hcreate⟩ :=
    create_reaches_socket E p servers ips bind_addr port retry_bind w hips
  obtain ⟨w1, addr, hw1, hsocket⟩ :=
    create_socket_ok E fuel c0 bind_addr port retry_bind s w0 (by rw [hw0]; exact hsock) hs
  have hb1 : w1.calls .bind = w.calls .bind := by rw [hw1, hw0]
  rw [hcreate fuel, hsocket]
  constructor
  · intro k hk hfail hok
    rcases k with _ | k
    · obtain ⟨f, rfl⟩ : ∃ f, fuel = f + 1 := ⟨fuel - 1, by omega⟩
      rw [create_bind_loop_ok E s addr port retry_bind f 10 0 0 0 w1 (by decide) (by decide)
        (by rw [hb1]; exact hok)]
      obtain ⟨c1, w2, h2, hl, hc⟩ := create_after_bind_ok E c0 s port 0
        { w1 with calls := fun j => if j = Sys.bind then w1.calls .bind + 1 else w1.calls j,
                  trace := w1.trace ++ [.bind s addr (port % 65536)] } (by decide)
      exact ⟨c1, w2, h2, hl, by rw [hc]; simp [hb1]⟩
    · obtain ⟨f, rfl⟩ : ∃ f, fuel = f + 1 + (k + 1) := ⟨fuel - 1 - (k + 1), by omega⟩
      rw [create_bind_loop_conflicts E s addr port retry_bind hretry k (f + 1) 10 0 0 w1
        (by omega) (fun j hj => by rw [hb1]; exact hfail j (by omega))]
      have hcnt := after_conflicts_calls_bind s addr port EADDRINUSE (k + 1) w1
      rw [create_bind_loop_ok E s addr port retry_bind f _ _ _ 0 _ (by omega) (by decide)
        (by rw [hcnt, hb1]; exact hok)]
      obtain ⟨c1, w2, h2, hl, hc⟩ := create_after_bind_ok E c0 s port 0
        { after_conflicts s addr port EADDRINUSE (k + 1) w1 with
            calls := fun j => if j = Sys.bind then
                (after_conflicts s addr port EADDRINUSE (k + 1) w1).calls .bind + 1
              else (after_conflicts s addr port EADDRINUSE (k + 1) w1).calls j,
            trace := (after_conflicts s addr port EADDRINUSE (k + 1) w1).trace ++
              [.bind s addr (port % 65536)] } (by decide)
      exact ⟨c1, w2, h2, hl, by rw [hc]; simp [hcnt, hb1]; omega⟩
  · intro hfail
    obtain ⟨f, rfl⟩ : ∃ f, fuel = f + 1 + (9 + 1) := ⟨fuel - 11, by omega⟩
    rw [create_bind_loop_conflicts E s addr port retry_bind hretry 9 (f + 1) 10 0 0 w1
      (by decide) (fun j hj => by rw [hb1]; exact hfail j (by omega))]
    have hcnt := after_conflicts_calls_bind s addr port EADDRINUSE (9 + 1) w1
    have e : (10 : Int) - ((9 : Nat) + 1) = 0 := by norm_num
    rw [e, create_bind_loop_done]
    obtain ⟨w2, h2, hc, hl⟩ := create_after_bind_fail E c0 s port
      (after_conflicts s addr port EADDRINUSE (9 + 1) w1)
    exact ⟨w2, h2, by rw [hc, hcnt, hb1], hl⟩

/-- C2 at concrete inputs: three conflicts and then success give a
connection after four calls of `bind`; ten conflicts give the fatal exit
after ten calls. -/
theorem create_bind_retry_witness :
    (∃ c w1, inet_create_connection (env_failing .bind 3 EADDRINUSE) 11 0 none (-1) none 0 0
        World.init = .ret (some c) w1 ∧ c.listen_fd = 3 ∧ w1.calls .bind = 0 + (3 + 1)) ∧
    (∃ w1, inet_create_connection (env_failing .bind 10 EADDRINUSE) 11 0 none (-1) none 2121 1
        World.init = .fatal 1 w1 ∧ w1.calls .bind = 0 + 10 ∧
        w1.trace.getLast? = some (.end_login 1)) :=
  ⟨(create_bind_retry (env_failing .bind 3 EADDRINUSE) 11 0 none [2130706433] none 0 0 3
      World.init (Or.inr rfl) rfl rfl (by decide) (by decide)).1 3 (by decide) (by decide) rfl,
   (create_bind_retry (env_failing .bind 10 EADDRINUSE) 11 0 none [2130706433] none 2121 1 3
      World.init (Or.inl (by decide)) rfl rfl (by decide) (by decide)).2 (by decide)⟩

/-- C3, as stated, fails: with a current send-buffer size of 65536 on
descriptor 3, a request of 1024 makes `inet_setoptions` record 1024, not the
prior OS value; so the recorded size is neither the prior OS value nor
`max(requested, current)`. -/
theorem setoptions_records_request_counterexample :
    ¬ (∀ (E : Env) (c : conn_t) (rcvbuf sndbuf cur : Int) (w : World),
        c.wfd ≠ -1 → E.sys .getsockopt (w.calls .getsockopt) = .ok cur →
        sndbuf ≠ 0 → sndbuf < cur →
        (inet_setoptions E c rcvbuf sndbuf w).2.1.sndbuf = max sndbuf cur) := by
  intro h
  have h1 := h (env_failing .bind 0 0) conn_on_3 1024 1024 65536 World.init (by decide) rfl
    (by decide) (by decide)
  revert h1
  decide

theorem setcalls_append (opt : SockOpt) (a b : List Event) :
    setcalls opt (a ++ b) = setcalls opt a ++ setcalls opt b := by
  simp [setcalls]

theorem setoptions_wfd_spec (E : Env) (c : conn_t) (sndbuf cur : Int) (w : World)
    (hw : c.wfd ≠ -1) (hcur : E.sys .getsockopt (w.calls .getsockopt) = .ok cur) :
    (setoptions_wfd E c sndbuf w).1 =
        { c with sndbuf := if sndbuf ≠ 0 then sndbuf else cur } ∧
      setcalls .SO_SNDBUF (setoptions_wfd E c sndbuf w).2.trace =
        setcalls .SO_SNDBUF w.trace ++
          (if sndbuf ≠ 0 ∧ sndbuf > cur then [(c.wfd, sndbuf)] else []) := by
  unfold setoptions_wfd getsockopt_int
  by_cases h0 : sndbuf = 0 <;> by_cases hgt : sndbuf > cur <;>
    simp [World.log, hw, hcur, h0, hgt, setcalls_append, setcalls]

theorem setoptions_rfd_spec (E : Env) (c : conn_t) (rcvbuf cur : Int) (w : World)
    (hr : c.rfd ≠ -1) (hcur : E.sys .getsockopt (w.calls .getsockopt) = .ok cur) :
    (setoptions_rfd E c rcvbuf w).1 =
        { c with rcvbuf := if rcvbuf ≠ 0 then rcvbuf else cur } ∧
      setcalls .SO_RCVBUF (setoptions_rfd E c rcvbuf w).2.trace =
        setcalls .SO_RCVBUF w.trace ++
          (if rcvbuf ≠ 0 ∧ rcvbuf > cur then [(c.rfd, rcvbuf)] else []) := by
  unfold setoptions_rfd getsockopt_int
  by_cases h0 : rcvbuf = 0 <;> by_cases hgt : rcvbuf > cur <;>
    simp [World.log, hr, hcur, h0, hgt, setcalls_append, setcalls]

theorem setoptions_wfd_frame (E : Env) (c : conn_t) (sndbuf : Int) (w : World) :
    (setoptions_wfd E c sndbuf w).1.rfd = c.rfd ∧
      (setoptions_wfd E c sndbuf w).1.rcvbuf = c.rcvbuf ∧
      (setoptions_wfd E c sndbuf w).2.calls .getsockopt =
        w.calls .getsockopt + (if c.wfd ≠ -1 then 1 else 0) ∧
      setcalls .SO_RCVBUF (setoptions_wfd E c sndbuf w).2.trace = setcalls .SO_RCVBUF w.trace := by
  unfold setoptions_wfd getsockopt_int
  by_cases hw : c.wfd = -1
  · simp [hw]
  · cases h : E.sys .getsockopt (w.calls .getsockopt) <;>
      simp only [World.log, h, bne_iff_ne, ne_eq, hw, not_false_eq_true, if_true] <;>
      split <;> simp [setcalls_append, setcalls]

theorem setoptions_rfd_frame (E : Env) (c : conn_t) (rcvbuf : Int) (w : World) :
    (setoptions_rfd E c rcvbuf w).1.sndbuf = c.sndbuf ∧
      setcalls .SO_SNDBUF (setoptions_rfd E c rcvbuf w).2.trace = setcalls .SO_SNDBUF w.trace := by
  unfold setoptions_rfd getsockopt_int
  by_cases hr : c.rfd = -1
  · simp [hr]
  · cases h : E.sys .getsockopt (w.calls .getsockopt) <;>
      simp only [World.log, h, bne_iff_ne, ne_eq, hr, not_false_eq_true, if_true] <;>
      split <;> simp [setcalls_append, setcalls]

/-- C3 (amended): in `inet_setoptions`, when the write descriptor is present
and `getsockopt` reports the current send size `cur`, `SO_SNDBUF` is set, to
the requested size, exactly when the request is non-zero and greater than
`cur` (so a smaller request makes no set call), and the recorded `sndbuf` is
the request when that is non-zero and `cur` when it is zero.  The same holds
for `rcvbuf` on the read descriptor. -/
theorem setoptions_buffers (E : Env) (c : conn_t) (rcvbuf sndbuf : Int) (w : World) :
    (∀ cur, c.wfd ≠ -1 → E.sys .getsockopt (w.calls .getsockopt) = .ok cur →
      (inet_setoptions E c rcvbuf sndbuf w).2.1.sndbuf = (if sndbuf ≠ 0 then sndbuf else cur) ∧
      setcalls .SO_SNDBUF (inet_setoptions E c rcvbuf sndbuf w).2.2.trace =
        setcalls .SO_SNDBUF w.trace ++
          (if sndbuf ≠ 0 ∧ sndbuf > cur then [(c.wfd, sndbuf)] else [])) ∧
    (∀ cur, c.rfd ≠ -1 →
      E.sys .getsockopt (w.calls .getsockopt + (if c.wfd ≠ -1 then 1 else 0)) = .ok cur →
      (inet_setoptions E c rcvbuf sndbuf w).2.1.rcvbuf = (if rcvbuf ≠ 0 then rcvbuf else cur) ∧
      setcalls .SO_RCVBUF (inet_setoptions E c rcvbuf sndbuf w).2.2.trace =
        setcalls .SO_RCVBUF w.trace ++
          (if rcvbuf ≠ 0 ∧ rcvbuf > cur then [(c.rfd, rcvbuf)] else [])) := by
  have hdef : inet_setoptions E c rcvbuf sndbuf w =
      (0, setoptions_rfd E (setoptions_wfd E c sndbuf w).1 rcvbuf (setoptions_wfd E c sndbuf w).2) :=
    rfl
  obtain ⟨f1, f2, f3, f4⟩ := setoptions_wfd_frame E c sndbuf w
  constructor
  · intro cur hw hcur
    obtain ⟨a1, a2⟩ := setoptions_wfd_spec E c sndbuf cur w hw hcur
    obtain ⟨g1, g2⟩ := setoptions_rfd_frame E (setoptions_wfd E c sndbuf w).1 rcvbuf
      (setoptions_wfd E c sndbuf w).2
    rw [hdef]
    exact ⟨by rw [g1, a1], by rw [g2, a2]⟩
  · intro cur hr hcur
    obtain ⟨a1, a2⟩ := setoptions_rfd_spec E (setoptions_wfd E c sndbuf w).1 rcvbuf cur
      (setoptions_wfd E c sndbuf w).2 (by rw [f1]; exact hr) (by rw [f3]; exact hcur)
    rw [hdef]
    exact ⟨by rw [a1], by rw [a2, f4, f1]⟩

/-- C3 (amended) at concrete inputs: on descriptor 3 with an OS size of
65536, a request of 1024 makes no set call and is recorded as it is. -/
theorem setoptions_buffers_witness :
    ((inet_setoptions (env_failing .bind 0 0) conn_on_3 1024 1024 World.init).2.1.sndbuf = 1024 ∧
      setcalls .SO_SNDBUF
        (inet_setoptions (env_failing .bind 0 0) conn_on_3 1024 1024 World.init).2.2.trace = []) ∧
    ((inet_setoptions (env_failing .bind 0 0) conn_on_3 1024 1024 World.init).2.1.rcvbuf = 1024 ∧
      setcalls .SO_RCVBUF
        (inet_setoptions (env_failing .bind 0 0) conn_on_3 1024 1024 World.init).2.2.trace = []) :=
  ⟨(setoptions_buffers (env_failing .bind 0 0) conn_on_3 1024 1024 World.init).1 65536
      (by decide) rfl,
   (setoptions_buffers (env_failing .bind 0 0) conn_on_3 1024 1024 World.init).2 65536
      (by decide) rfl⟩

theorem quiet_refl (w : World) : quiet w w := ⟨rfl, rfl⟩

theorem quiet_trans {a b c : World} (h1 : quiet a b) (h2 : quiet b c) : quiet a c :=
  ⟨h2.1.trans h1.1, h2.2.trans h1.2⟩

theorem fdcalls_append (a b : List Event) : fdcalls (a ++ b) = fdcalls a ++ fdcalls b := by
  simp [fdcalls]

theorem quiet_palloc (pool : Nat) (v : CellVal) (w : World) : quiet w (palloc pool v w).2 :=
  ⟨rfl, rfl⟩

theorem quiet_store (w : World) (p : Nat) (v : CellVal) : quiet w (w.store p v) := ⟨rfl, rfl⟩

theorem quiet_copy (p : Nat) (c : conn_t) (w : World) :
    quiet w (inet_copy_connection p c w).2 := by
  unfold inet_copy_connection
  cases c.local_ipaddr <;> cases c.remote_ipaddr <;> cases c.remote_name <;> cases c.iplist <;>
    simp [quiet, copy_cell, make_sub_pool, palloc, World.log, fdcalls_append, fdcalls,
      is_fd_event]

theorem syscall_trace (E : Env) (w : World) (k : Sys) (e : Event) :
    (w.syscall E k e).2.trace = w.trace ++ [e] := by
  unfold World.syscall
  cases E.sys k (w.calls k) <;> rfl

theorem syscall_calls (E : Env) (w : World) (k : Sys) (e : Event) :
    (w.syscall E k e).2.calls = fun j => if j = k then w.calls k + 1 else w.calls j := by
  unfold World.syscall
  cases E.sys k (w.calls k) <;> rfl

theorem syscall_val (E : Env) (w : World) (k : Sys) (e : Event) :
    (w.syscall E k e).1 = (E.sys k (w.calls k)).val := by
  unfold World.syscall
  cases E.sys k (w.calls k) <;> rfl

theorem quiet_get_conn_info (E : Env) (c : conn_t) (fd : Int) (w : World) :
    quiet w (inet_get_conn_info E c fd w).2.2 := by
  unfold inet_get_conn_info quiet
  cases c.local_ipaddr <;> simp only [] <;> split_ifs <;>
    simp [syscall_trace, syscall_calls, palloc, World.store, fdcalls_append, fdcalls, is_fd_event]

theorem quiet_getname (E : Env) (pool addr : Nat) (w : World) :
    quiet w (inet_getname E pool addr w).2 := by
  unfold inet_getname
  by_cases h : w.reverse_dns = 0
  · simp [h, quiet, pstrdup, palloc, World.store]
  · cases E.hostbyaddr addr <;>
      simp [h, quiet, pstrdup, palloc, World.store, World.log, fdcalls_append, fdcalls,
        is_fd_event]

theorem getsockopt_trace (E : Env) (fd : Int) (opt : SockOpt) (w : World) :
    (getsockopt_int E fd opt w).2.trace = w.trace ++ [.getsockopt fd opt] := by
  unfold getsockopt_int
  cases E.sys .getsockopt (w.calls .getsockopt) <;> rfl

theorem getsockopt_calls (E : Env) (fd : Int) (opt : SockOpt) (w : World) :
    (getsockopt_int E fd opt w).2.calls =
      fun j => if j = Sys.getsockopt then w.calls .getsockopt + 1 else w.calls j := by
  unfold getsockopt_int
  cases E.sys .getsockopt (w.calls .getsockopt) <;> rfl

theorem quiet_setoptions_wfd (E : Env) (c : conn_t) (sndbuf : Int) (w : World) :
    quiet w (setoptions_wfd E c sndbuf w).2 := by
  unfold setoptions_wfd quiet
  simp only []
  split_ifs <;>
    simp [getsockopt_trace, getsockopt_calls, World.log, fdcalls_append, fdcalls, is_fd_event]

theorem quiet_setoptions_rfd (E : Env) (c : conn_t) (rcvbuf : Int) (w : World) :
    quiet w (setoptions_rfd E c rcvbuf w).2 := by
  unfold setoptions_rfd quiet
  simp only []
  split_ifs <;>
    simp [getsockopt_trace, getsockopt_calls, World.log, fdcalls_append, fdcalls, is_fd_event]

theorem quiet_setoptions (E : Env) (c : conn_t) (rcvbuf sndbuf : Int) (w : World) :
    quiet w (inet_setoptions E c rcvbuf sndbuf w).2.2 :=
  quiet_trans (quiet_setoptions_wfd E c sndbuf w) (quiet_setoptions_rfd E _ rcvbuf _)

theorem quiet_setblock (E : Env) (c : conn_t) (w : World) :
    quiet w (inet_setblock E c w).2 := by
  unfold inet_setblock quiet
  simp only []
  split_ifs <;>
    simp [syscall_trace, syscall_calls, fdcalls_append, fdcalls, is_fd_event]

theorem quiet_setnonblock (E : Env) (c : conn_t) (w : World) :
    quiet w (inet_setnonblock E c w).2 := by
  unfold inet_setnonblock quiet
  simp only []
  split_ifs <;>
    simp [syscall_trace, syscall_calls, fdcalls_append, fdcalls, is_fd_event]

theorem quiet_io_open (pool : Nat) (fd : Int) (mode : IOMode) (w : World) :
    quiet w (io_open pool fd mode w).2 := by
  simp [io_open, palloc, quiet, World.log, fdcalls_append, fdcalls, is_fd_event]

theorem quiet_pstrdup (pool : Nat) (s : List Char) (w : World) : quiet w (pstrdup pool s w).2 :=
  ⟨rfl, rfl⟩

theorem copy_remote (p : Nat) (c : conn_t) (w : World) :
    (inet_copy_connection p c w).1.remote_name.isSome = c.remote_name.isSome ∧
      (inet_copy_connection p c w).1.remote_ipaddr.isSome = c.remote_ipaddr.isSome ∧
      (inet_copy_connection p c w).2.calls = w.calls := by
  unfold inet_copy_connection
  cases c.local_ipaddr <;> cases c.remote_ipaddr <;> cases c.remote_name <;> cases c.iplist <;>
    simp [copy_cell, make_sub_pool, palloc, World.log]

theorem get_conn_info_remote (E : Env) (c : conn_t) (fd : Int) (w : World) :
    (inet_get_conn_info E c fd w).2.1.remote_name = c.remote_name ∧
      (c.remote_ipaddr.isSome → (inet_get_conn_info E c fd w).2.1.remote_ipaddr.isSome) ∧
      (∀ a b, a ≠ -1 → b ≠ -1 → E.sys .getsockname (w.calls .getsockname) = .ok a →
        E.sys .getpeername (w.calls .getpeername) = .ok b →
        (inet_get_conn_info E c fd w).2.1.remote_ipaddr.isSome) := by
  unfold inet_get_conn_info
  refine ⟨?_, ?_, ?_⟩
  · cases c.local_ipaddr <;> simp only [] <;> split_ifs <;> rfl
  · intro h
    cases c.local_ipaddr <;> simp only [] <;> split_ifs <;> first | rfl | exact h
  · intro a b ha hb h1 h2
    cases c.local_ipaddr <;>
      simp [syscall_val, syscall_calls, palloc, World.store, h1, h2, SysRes.val, ha, hb]

/-- Under any of the conditions that make a remote name available, the first
part of `inet_openrw` returns, and duplicates or closes no descriptor. -/
theorem openrw_remote_ret (E : Env) (pool : Nat) (c : conn_t) (addr : Option Nat) (fd : Int)
    (resolve : Int) (w : World)
    (hname : addr.isSome ∨ c.remote_name.isSome ∨ c.remote_ipaddr.isSome ∨
      ∃ a b, a ≠ -1 ∧ b ≠ -1 ∧ E.sys .getsockname (w.calls .getsockname) = .ok a ∧
        E.sys .getpeername (w.calls .getpeername) = .ok b) :
    ∃ res w1, openrw_remote E pool c addr fd resolve w = .ret res w1 ∧ quiet w w1 := by
  obtain ⟨c1, c2, c3⟩ := copy_remote pool c w
  have q1 := quiet_copy pool c w
  obtain ⟨g1, g2, g3⟩ := get_conn_info_remote E
    { (inet_copy_connection pool c w).1 with listen_fd := -1 } fd (inet_copy_connection pool c w).2
  have q2 := quiet_trans q1 (quiet_get_conn_info E
    { (inet_copy_connection pool c w).1 with listen_fd := -1 } fd (inet_copy_connection pool c w).2)
  rw [c3] at g3
  unfold openrw_remote
  simp only []
  generalize (inet_get_conn_info E { (inet_copy_connection pool c w).1 with listen_fd := -1 } fd
    (inet_copy_connection pool c w).2) = r2 at g1 g2 g3 q2 ⊢
  obtain ⟨x, res2, w2⟩ := r2
  simp only [] at g1 g2 g3 q2 ⊢
  have key : addr.isSome ∨ res2.remote_name.isSome ∨ res2.remote_ipaddr.isSome := by
    rcases hname with h | h | h | ⟨a, b, ha, hb, h1, h2⟩
    · exact Or.inl h
    · right; left; rw [g1]; simpa [c1] using h
    · right; right; exact g2 (by simpa [c2] using h)
    · right; right; exact g3 a b ha hb h1 h2
  cases haddr : addr <;> cases hip : res2.remote_ipaddr <;> cases hnm : res2.remote_name <;>
    by_cases hres : resolve = 0 <;>
    simp only [haddr, hip, hnm, hres, Option.isSome_none, Option.isSome_some, or_self, or_false,
      false_or, Bool.false_eq_true, bne_self_eq_false, if_false, bne_iff_ne, ne_eq,
      not_false_eq_true, if_true] at key ⊢ <;>
    exact ⟨_, _, rfl, by
      repeat (first
        | exact q2
        | refine quiet_trans ?_ (quiet_getname _ _ _ _)
        | refine quiet_trans ?_ (quiet_pstrdup _ _ _)
        | refine quiet_trans ?_ (quiet_store _ _ _)
        | refine quiet_trans ?_ (quiet_palloc _ _ _))⟩

theorem setoptions_fds (E : Env) (c : conn_t) (rcvbuf sndbuf : Int) (w : World) :
    (inet_setoptions E c rcvbuf sndbuf w).2.1.rfd = c.rfd ∧
      (inet_setoptions E c rcvbuf sndbuf w).2.1.wfd = c.wfd := by
  unfold inet_setoptions setoptions_rfd setoptions_wfd
  simp only []
  split_ifs <;> simp

theorem openrw_streams_spec (E : Env) (res : conn_t) (w : World) :
    quiet w (openrw_streams E res w).2 ∧ (openrw_streams E res w).1.rfd = res.rfd ∧
      (openrw_streams E res w).1.wfd = res.wfd ∧ (openrw_streams E res w).1.mode = CM_OPEN := by
  unfold openrw_streams
  refine ⟨?_, ?_, ?_, ?_⟩
  · exact quiet_trans (quiet_trans (quiet_trans (quiet_io_open _ _ _ _) (quiet_io_open _ _ _ _))
      (quiet_setoptions E _ _ _ _)) (quiet_setblock E _ _)
  · exact (setoptions_fds E _ 0 0 _).1
  · exact (setoptions_fds E _ 0 0 _).2
  · rfl

/-- What `inet_openrw` does to obtain one side: nothing when the requested
descriptor is `fd` itself, `dup2` onto a requested descriptor, `dup`
otherwise. -/
theorem openrw_fds_spec (E : Env) (c : conn_t) (fd rfd wfd d1 d2 : Int) (w : World)
    (hfd : fd ≠ -1)
    (hd1 : rfd = -1 → E.sys .dup (w.calls .dup) = .ok d1 ∧ d1 ≠ -1)
    (hd2 : wfd = -1 →
      E.sys .dup (w.calls .dup + (if rfd = -1 then 1 else 0)) = .ok d2 ∧ d2 ≠ -1) :
    (openrw_fds E c fd rfd wfd w).1 = (if rfd ≠ -1 then rfd else d1) ∧
      (openrw_fds E c fd rfd wfd w).2.1 = (if wfd ≠ -1 then wfd else d2) ∧
      fdcalls (openrw_fds E c fd rfd wfd w).2.2.trace =
        fdcalls w.trace ++
          (if rfd = -1 then [.dup fd] else if rfd ≠ fd then [.dup2 fd rfd] else []) ++
          (if wfd = -1 then [.dup fd] else if wfd ≠ fd then [.dup2 fd wfd] else []) ++
          (if rfd ≠ fd ∧ wfd ≠ fd then [.close fd] else []) := by
  unfold openrw_fds
  have hfd2 : ¬ (-1 = fd) := fun h => hfd h.symm
  by_cases hr : rfd = -1 <;> by_cases hw : wfd = -1
  · obtain ⟨e1, n1⟩ := hd1 hr
    obtain ⟨e2, n2⟩ := hd2 hw
    simp only [hr, if_true] at e2
    subst hr; subst hw
    simp [hfd, hfd2, World.syscall, e1, e2, n1, n2, World.log, fdcalls_append, fdcalls,
      is_fd_event]
  · obtain ⟨e1, n1⟩ := hd1 hr
    subst hr
    have ew : (wfd = fd) = (fd = wfd) := propext eq_comm
    by_cases hwf : fd = wfd
    · subst hwf
      simp [hfd, hfd2, World.syscall, e1, n1, World.log, fdcalls_append, fdcalls, is_fd_event]
    · by_cases hs : wfd = 1
      · subst hs
        simp [hfd, hfd2, World.syscall, e1, n1, ew, hwf, World.log, fdcalls_append,
          fdcalls, is_fd_event, STDOUT_FILENO]
      · simp [hfd, hfd2, World.syscall, e1, n1, hw, ew, hwf, hs, World.log, fdcalls_append,
          fdcalls, is_fd_event, STDOUT_FILENO]
  · obtain ⟨e2, n2⟩ := hd2 hw
    simp only [hr, if_false, Nat.add_zero] at e2
    subst hw
    have er : (rfd = fd) = (fd = rfd) := propext eq_comm
    by_cases hrf : fd = rfd
    · subst hrf
      simp [hfd, hfd2, World.syscall, e2, n2, World.log, fdcalls_append, fdcalls, is_fd_event]
    · simp [hfd, hfd2, World.syscall, e2, n2, hr, er, hrf, World.log, fdcalls_append,
        fdcalls, is_fd_event]
  · have er : (rfd = fd) = (fd = rfd) := propext eq_comm
    have ew : (wfd = fd) = (fd = wfd) := propext eq_comm
    by_cases hrf : fd = rfd
    · subst hrf
      by_cases hwf : fd = wfd
      · subst hwf
        simp [hfd, World.log, fdcalls_append, fdcalls, is_fd_event]
      · by_cases hs : wfd = 1
        · subst hs
          simp [hfd, hwf, ew, World.log, fdcalls_append, fdcalls, is_fd_event, STDOUT_FILENO]
        · simp [hfd, hw, hwf, ew, hs, World.log, fdcalls_append, fdcalls, is_fd_event,
            STDOUT_FILENO]
    · by_cases hwf : fd = wfd
      · subst hwf
        simp [hfd, hr, hrf, er, World.log, fdcalls_append, fdcalls, is_fd_event]
      · by_cases hs : wfd = 1
        · subst hs
          simp [hfd, hr, hrf, er, hwf, ew, World.log, fdcalls_append, fdcalls, is_fd_event,
            STDOUT_FILENO]
        · simp [hfd, hr, hrf, er, hw, hwf, ew, hs, World.log, fdcalls_append, fdcalls,
            is_fd_event, STDOUT_FILENO]

theorem closes_fdcalls (tr : List Event) : closes (fdcalls tr) = closes tr := by
  induction tr with
  | nil => rfl
  | cons e rest ih =>
    cases e <;> simp_all [closes, fdcalls, is_fd_event]

theorem closes_append (a b : List Event) : closes (a ++ b) = closes a ++ closes b := by
  simp [closes]

/-- The descriptors of `inet_openrw` where the function gets as far as them:
a valid `fd`, `dup` (and `dup2`) succeeding, and a remote address or name
available, so that line 1003 has something to print.  The result's read
descriptor is the requested `rfd` when one is given and the descriptor
returned by `dup(fd)` otherwise, likewise for the write descriptor; each side
is obtained by nothing (the request is `fd` itself), by `dup2(fd, requested)`
or by `dup(fd)`; and `close(fd)` is issued, once and after the duplications,
if and only if neither request equals `fd`.  No other descriptor is closed. -/
theorem openrw_descriptors (E : Env) (pool : Nat) (c : conn_t) (addr : Option Nat)
    (fd rfd wfd resolve d1 d2 : Int) (w : World)
    (hfd : fd ≠ -1)
    (hname : addr.isSome ∨ c.remote_name.isSome ∨ c.remote_ipaddr.isSome ∨
      ∃ a b, a ≠ -1 ∧ b ≠ -1 ∧ E.sys .getsockname (w.calls .getsockname) = .ok a ∧
        E.sys .getpeername (w.calls .getpeername) = .ok b)
    (hd1 : rfd = -1 → E.sys .dup (w.calls .dup) = .ok d1 ∧ d1 ≠ -1)
    (hd2 : wfd = -1 →
      E.sys .dup (w.calls .dup + (if rfd = -1 then 1 else 0)) = .ok d2 ∧ d2 ≠ -1) :
    ∃ res w1, inet_openrw E pool c addr fd rfd wfd resolve w = .ret res w1 ∧
      res.rfd = (if rfd ≠ -1 then rfd else d1) ∧
      res.wfd = (if wfd ≠ -1 then wfd else d2) ∧
      fdcalls w1.trace =
        fdcalls w.trace ++
          (if rfd = -1 then [.dup fd] else if rfd ≠ fd then [.dup2 fd rfd] else []) ++
          (if wfd = -1 then [.dup fd] else if wfd ≠ fd then [.dup2 fd wfd] else []) ++
          (if rfd ≠ fd ∧ wfd ≠ fd then [.close fd] else []) ∧
      closes w1.trace = closes w.trace ++ (if rfd ≠ fd ∧ wfd ≠ fd then [fd] else []) := by
  obtain ⟨res0, w0, h0, q0⟩ := openrw_remote_ret E pool c addr fd resolve w hname
  obtain ⟨f1, f2, f3⟩ := openrw_fds_spec E c fd rfd wfd d1 d2 w0 hfd
    (by rw [q0.2]; exact hd1) (by rw [q0.2]; exact hd2)
  obtain ⟨s1, s2, s3, _⟩ := openrw_streams_spec E
    { res0 with rfd := (openrw_fds E c fd rfd wfd w0).1,
                wfd := (openrw_fds E c fd rfd wfd w0).2.1 } (openrw_fds E c fd rfd wfd w0).2.2
  have htr : fdcalls (openrw_streams E
      { res0 with rfd := (openrw_fds E c fd rfd wfd w0).1,
                  wfd := (openrw_fds E c fd rfd wfd w0).2.1 }
      (openrw_fds E c fd rfd wfd w0).2.2).2.trace =
      fdcalls w.trace ++
        (if rfd = -1 then [.dup fd] else if rfd ≠ fd then [.dup2 fd rfd] else []) ++
        (if wfd = -1 then [.dup fd] else if wfd ≠ fd then [.dup2 fd wfd] else []) ++
        (if rfd ≠ fd ∧ wfd ≠ fd then [.close fd] else []) := by
    rw [s1.1, f3, q0.1]
  refine ⟨_, _, by rw [inet_openrw, h0], ?_, ?_, htr, ?_⟩
  · rw [s2]; exact f1
  · rw [s3]; exact f2
  · rw [← closes_fdcalls, htr, closes_append, closes_append, closes_append, closes_fdcalls]
    have hfd2 : ¬ (-1 = fd) := fun h => hfd h.symm
    by_cases hr : rfd = -1 <;> by_cases hw : wfd = -1 <;> by_cases hrf : rfd = fd <;>
      by_cases hwf : wfd = fd <;> simp [closes, hr, hw, hrf, hwf, hfd, hfd2]

/-- The descriptors of `inet_openrw` at concrete inputs: a socket 4 accepted
on the listener gets fresh duplicates 5 and 6 and is closed; asked for as the read descriptor itself it
is adopted, the write side is duplicated onto 1, and nothing is closed. -/
theorem openrw_descriptors_witness :
    (∃ res w1, inet_openrw (env_failing .bind 0 0) 0 listener_on_3 none 4 (-1) (-1) 0
        World.init = .ret res w1 ∧ res.rfd = 5 ∧ res.wfd = 6 ∧
        fdcalls w1.trace = [.dup 4, .dup 4, .close 4] ∧ closes w1.trace = [4]) ∧
    (∃ res w1, inet_openrw (env_failing .bind 0 0) 0 listener_on_3 none 4 4 1 0
        World.init = .ret res w1 ∧ res.rfd = 4 ∧ res.wfd = 1 ∧
        fdcalls w1.trace = [.dup2 4 1] ∧ closes w1.trace = []) :=
  ⟨openrw_descriptors (env_failing .bind 0 0) 0 listener_on_3 none 4 (-1) (-1) 0 5 6
      World.init (by decide) (Or.inr (Or.inr (Or.inr ⟨0, 0, by decide, by decide, rfl, rfl⟩)))
      (fun _ => ⟨rfl, by decide⟩) (fun _ => ⟨rfl, by decide⟩),
   openrw_descriptors (env_failing .bind 0 0) 0 listener_on_3 none 4 4 1 0 5 6
      World.init (by decide) (Or.inr (Or.inr (Or.inr ⟨0, 0, by decide, by decide, rfl, rfl⟩)))
      (fun h => absurd h (by decide)) (fun h => absurd h (by decide))⟩

/-- C5, as stated, fails: for a connection whose read and write descriptor
are both 3 (no streams, no listening descriptor) `_conn_cleanup` issues
`close(3)` twice. -/
theorem conn_cleanup_double_close_counterexample :
    ¬ (∀ (c : conn_t) (w : World), ∃ l, closes (_conn_cleanup c w).trace =
        closes w.trace ++ l ∧ l.Nodup) := by
  intro h
  obtain ⟨l, hl, hn⟩ := h conn_on_3 World.init
  have e : closes (_conn_cleanup conn_on_3 World.init).trace = [3, 3] := by decide
  rw [e] at hl
  have : l = [3, 3] := by simpa [closes, World.init] using hl.symm
  subst this
  revert hn
  decide

/-- C5 (amended): the close calls `_conn_cleanup` issues are, in order, one
for the input stream, one for the output stream unless it is the same stream
as the input stream, and one for each of `listen_fd`, `rfd`, `wfd` that is
not -1.  Hence every descriptor the connection references is closed at least
once, a stream held in both stream fields is closed once, and no descriptor
is closed twice when these entries are pairwise different. -/
theorem conn_cleanup_closes (c : conn_t) (w : World) :
    closes (_conn_cleanup c w).trace = closes w.trace ++ cleanup_targets c w ∧
    (∀ f, c.inf = some f → w.fd_at f ∈ cleanup_targets c w) ∧
    (∀ g, c.outf = some g → w.fd_at g ∈ cleanup_targets c w) ∧
    (c.listen_fd ≠ -1 → c.listen_fd ∈ cleanup_targets c w) ∧
    (c.rfd ≠ -1 → c.rfd ∈ cleanup_targets c w) ∧
    (c.wfd ≠ -1 → c.wfd ∈ cleanup_targets c w) ∧
    (∀ f, c.inf = some f → c.outf = some f →
      cleanup_targets c w = w.fd_at f :: [c.listen_fd, c.rfd, c.wfd].filter (fun d => d != -1)) ∧
    ((cleanup_targets c w).Nodup →
      ∀ d, (closes (_conn_cleanup c w).trace).count d ≤ (closes w.trace).count d + 1) := by
  have heq : closes (_conn_cleanup c w).trace = closes w.trace ++ cleanup_targets c w := by
    unfold _conn_cleanup cleanup_targets io_close
    rcases hi : c.inf with _ | f <;> rcases ho : c.outf with _ | g <;>
      by_cases hl : c.listen_fd = -1 <;> by_cases hr : c.rfd = -1 <;>
      by_cases hw : c.wfd = -1 <;>
      simp [World.log, closes_append, closes, hl, hr, hw, World.fd_at, List.filter_cons] <;>
      (try split_ifs) <;> simp_all [closes]
  refine ⟨heq, ?_, ?_, ?_, ?_, ?_, ?_, ?_⟩
  · intro f hf
    simp [cleanup_targets, hf]
  · intro g hg
    unfold cleanup_targets
    rcases hi : c.inf with _ | f
    · simp [hg]
    · by_cases e : g = f
      · subst e; simp [hg]
      · simp [hg, e]
  · intro h
    simp [cleanup_targets, List.filter_cons, h]
  · intro h
    by_cases hl : c.listen_fd = -1 <;> simp [cleanup_targets, List.filter_cons, h, hl]
  · intro h
    by_cases hl : c.listen_fd = -1 <;> by_cases hr : c.rfd = -1 <;>
      simp [cleanup_targets, List.filter_cons, h, hl, hr]
  · intro f hi ho
    simp [cleanup_targets, hi, ho]
  · intro hn d
    rw [heq, List.count_append]
    have := List.nodup_iff_count_le_one.1 hn d
    omega

/-- C5 (amended) at a concrete input: a listener on descriptor 3 is closed
by one `close(3)`. -/
theorem conn_cleanup_closes_witness :
    closes (_conn_cleanup listener_on_3 World.init).trace = [3] ∧
      ∀ d, (closes (_conn_cleanup listener_on_3 World.init).trace).count d ≤
        (closes World.init.trace).count d + 1 :=
  ⟨(conn_cleanup_closes listener_on_3 World.init).1,
   (conn_cleanup_closes listener_on_3 World.init).2.2.2.2.2.2.2 (by decide)⟩

theorem nth_new0 {α : Type} (h : List α) (x : α) (ys : List α) :
    (h ++ x :: ys)[h.length]? = some x := by
  rw [List.getElem?_append_right (le_refl _)]; simp

theorem nth_old {α : Type} (h ext : List α) (i : Nat) (hi : i < h.length) :
    (h ++ ext)[i]? = h[i]? := by
  rw [List.getElem?_append_left hi]

theorem store_other (w : World) (q i : Nat) (v : CellVal) (h : q ≠ i) :
    (w.store q v).heap.get? i = w.heap.get? i := by
  simp [World.store, List.getElem?_modify_ne _ _ h]

theorem str_at_congr (w1 w2 : World) (s : Nat) (h : w1.heap.get? s = w2.heap.get? s) :
    w1.str_at s = w2.str_at s := by
  unfold World.str_at; rw [h]

theorem addr_at_congr (w1 w2 : World) (s : Nat) (h : w1.heap.get? s = w2.heap.get? s) :
    w1.addr_at s = w2.addr_at s := by
  unfold World.addr_at; rw [h]

theorem array_at_congr (w1 w2 : World) (s : Nat) (h : w1.heap.get? s = w2.heap.get? s) :
    w1.array_at s = w2.array_at s := by
  unfold World.array_at; rw [h]

theorem grows_refl (w : World) : grows w w := ⟨[], by simp⟩

theorem grows_trans {a b c : World} (h1 : grows a b) (h2 : grows b c) : grows a c := by
  obtain ⟨e1, h1⟩ := h1
  obtain ⟨e2, h2⟩ := h2
  exact ⟨e1 ++ e2, by rw [h2, h1, List.append_assoc]⟩

theorem grows_get {w w1 : World} (h : grows w w1) (i : Nat) (hi : i < w.heap.length) :
    w1.heap.get? i = w.heap.get? i := by
  obtain ⟨e, h⟩ := h
  simp [h, nth_old _ _ _ hi]

theorem grows_length {w w1 : World} (h : grows w w1) : w.heap.length ≤ w1.heap.length := by
  obtain ⟨e, h⟩ := h
  simp [h]

/-- One deep-copy step: the heap grows, a NULL pointer stays NULL, and a
non-NULL pointer `a` is answered by a pointer to a fresh cell holding what
`rd` read through `a`. -/
theorem copy_cell_spec (pool : Nat) (src : Option Nat) (rd : World → Nat → CellVal)
    (w : World) :
    grows w (copy_cell pool src rd w).2 ∧
    (src = none → (copy_cell pool src rd w).1 = none) ∧
    (∀ a, src = some a → (copy_cell pool src rd w).1 = some w.heap.length ∧
      w.heap.length < (copy_cell pool src rd w).2.heap.length ∧
      (copy_cell pool src rd w).2.heap.get? w.heap.length = some ⟨pool, rd w a⟩) := by
  unfold copy_cell
  cases src with
  | none => exact And.intro (grows_refl w) (And.intro (fun _ => rfl) (fun a h => by cases h))
  | some a =>
    refine And.intro (Exists.intro [⟨pool, rd w a⟩] rfl)
      (And.intro (fun h => by cases h) (fun b h => ?_))
    cases h
    refine ⟨rfl, by simp [palloc], ?_⟩
    simp [-List.getElem?_eq_getElem, palloc, nth_new0]

theorem copy_cell_later (pool : Nat) (src : Option Nat) (rd : World → Nat → CellVal)
    (w wf : World) (hg : grows (copy_cell pool src rd w).2 wf) (a : Nat) (h : src = some a) :
    ∃ q, (copy_cell pool src rd w).1 = some q ∧ w.heap.length ≤ q ∧
      wf.heap.get? q = some ⟨pool, rd w a⟩ := by
  obtain ⟨_, _, h3⟩ := copy_cell_spec pool src rd w
  obtain ⟨e1, e2, e3⟩ := h3 a h
  exact ⟨w.heap.length, e1, le_refl _, by rw [grows_get hg _ e2, e3]⟩

theorem copy_cell_none (pool : Nat) (rd : World → Nat → CellVal) (w : World) :
    (copy_cell pool none rd w).1 = none := rfl

theorem addr_at_of_get (w : World) (q o a : Nat) (h : w.heap.get? q = some ⟨o, .in_addr a⟩) :
    w.addr_at q = a := by
  unfold World.addr_at; rw [h]

theorem str_at_of_get (w : World) (q o : Nat) (s : List Char)
    (h : w.heap.get? q = some ⟨o, .str s⟩) : w.str_at q = s := by
  unfold World.str_at; rw [h]

theorem array_at_of_get (w : World) (q o : Nat) (l : List Nat)
    (h : w.heap.get? q = some ⟨o, .array l⟩) : w.array_at q = l := by
  unfold World.array_at; rw [h]

theorem grows_log (w : World) (e : Event) : grows w (w.log e) := ⟨[], by simp [World.log]⟩

/-- C6: `inet_copy_connection` on a source whose pointers are valid.  The
copy has the scalar fields of the source and no streams; its local address,
remote address, remote name and bound list are fresh cells holding the
values of the source; nothing the heap held before is changed; and storing
any value through a pointer of the copy leaves every earlier cell, hence the
source's remote name, addresses and list, as they were. -/
theorem copy_connection_spec (p : Nat) (c : conn_t) (w : World) (hv : conn_valid c w) :
    ((inet_copy_connection p c w).1.mode = c.mode ∧
      (inet_copy_connection p c w).1.listen_fd = c.listen_fd ∧
      (inet_copy_connection p c w).1.rfd = c.rfd ∧
      (inet_copy_connection p c w).1.wfd = c.wfd ∧
      (inet_copy_connection p c w).1.local_port = c.local_port ∧
      (inet_copy_connection p c w).1.remote_port = c.remote_port ∧
      (inet_copy_connection p c w).1.niplist = c.niplist ∧
      (inet_copy_connection p c w).1.sndbuf = c.sndbuf ∧
      (inet_copy_connection p c w).1.rcvbuf = c.rcvbuf ∧
      (inet_copy_connection p c w).1.xerrno = c.xerrno) ∧
    ((inet_copy_connection p c w).1.inf = none ∧ (inet_copy_connection p c w).1.outf = none) ∧
    ((inet_copy_connection p c w).1.local_ipaddr.map (inet_copy_connection p c w).2.addr_at =
        c.local_ipaddr.map w.addr_at ∧
      (inet_copy_connection p c w).1.remote_ipaddr.map (inet_copy_connection p c w).2.addr_at =
        c.remote_ipaddr.map w.addr_at ∧
      (inet_copy_connection p c w).1.remote_name.map (inet_copy_connection p c w).2.str_at =
        c.remote_name.map (fun s => cstr (w.str_at s)) ∧
      (inet_copy_connection p c w).1.iplist.map (inet_copy_connection p c w).2.array_at =
        c.iplist.map w.array_at) ∧
    (∀ i, i < w.heap.length → (inet_copy_connection p c w).2.heap.get? i = w.heap.get? i) ∧
    (∀ q v, ((inet_copy_connection p c w).1.local_ipaddr = some q ∨
        (inet_copy_connection p c w).1.remote_ipaddr = some q ∨
        (inet_copy_connection p c w).1.remote_name = some q ∨
        (inet_copy_connection p c w).1.iplist = some q) →
      (∀ i, i < w.heap.length →
        ((inet_copy_connection p c w).2.store q v).heap.get? i = w.heap.get? i) ∧
      (∀ s, c.remote_name = some s →
        ((inet_copy_connection p c w).2.store q v).str_at s = w.str_at s) ∧
      (∀ a, c.local_ipaddr = some a →
        ((inet_copy_connection p c w).2.store q v).addr_at a = w.addr_at a) ∧
      (∀ a, c.remote_ipaddr = some a →
        ((inet_copy_connection p c w).2.store q v).addr_at a = w.addr_at a) ∧
      (∀ l, c.iplist = some l →
        ((inet_copy_connection p c w).2.store q v).array_at l = w.array_at l)) := by
  obtain ⟨v1, v2, v3, v4⟩ := hv
  -- the four deep-copy steps
  let rda : World → Nat → CellVal := fun w a => .in_addr (w.addr_at a)
  let rds : World → Nat → CellVal := fun w s => .str (cstr (w.str_at s))
  let rdl : World → Nat → CellVal := fun w l => .array (w.array_at l)
  let sp := w.pools.length
  let w0 : World := (make_sub_pool p w).2
  let s1 := copy_cell sp c.local_ipaddr rda w0
  let s2 := copy_cell sp c.remote_ipaddr rda s1.2
  let s3 := copy_cell sp c.remote_name rds s2.2
  let s4 := copy_cell sp c.iplist rdl s3.2
  have hdef : inet_copy_connection p c w =
      ({ c with pool := sp, inf := none, outf := none, local_ipaddr := s1.1,
                remote_ipaddr := s2.1, remote_name := s3.1, iplist := s4.1 },
        s4.2.log (.register_cleanup sp)) := rfl
  have g0 : grows w w0 := ⟨[], by simp [w0, make_sub_pool]⟩
  have g1 : grows w0 s1.2 := (copy_cell_spec _ _ _ _).1
  have g2 : grows s1.2 s2.2 := (copy_cell_spec _ _ _ _).1
  have g3 : grows s2.2 s3.2 := (copy_cell_spec _ _ _ _).1
  have g4 : grows s3.2 s4.2 := (copy_cell_spec _ _ _ _).1
  have g5 : grows s4.2 (s4.2.log (.register_cleanup sp)) := grows_log _ _
  have G1 := grows_trans g0 g1
  have G2 := grows_trans G1 g2
  have G3 := grows_trans G2 g3
  have G4 := grows_trans G3 g4
  have G5 := grows_trans G4 g5
  have l1 := grows_trans (grows_trans (grows_trans g2 g3) g4) g5
  have l2 := grows_trans (grows_trans g3 g4) g5
  have l3 := grows_trans g4 g5
  have fresh : ∀ q, (s1.1 = some q ∨ s2.1 = some q ∨ s3.1 = some q ∨ s4.1 = some q) →
      w.heap.length ≤ q := by
    intro q hq
    rcases hq with h | h | h | h
    · rcases hc : c.local_ipaddr with _ | a
      · simp [s1, hc, copy_cell_none] at h
      · obtain ⟨q1, e1, e2, _⟩ := copy_cell_later sp _ rda w0 _ (grows_refl _) a hc
        have : q = q1 := by simpa [s1, e1] using h.symm
        have := grows_length g0; omega
    · rcases hc : c.remote_ipaddr with _ | a
      · simp [s2, hc, copy_cell_none] at h
      · obtain ⟨q1, e1, e2, _⟩ := copy_cell_later sp _ rda s1.2 _ (grows_refl _) a hc
        have : q = q1 := by simpa [s2, e1] using h.symm
        have := grows_length G1; omega
    · rcases hc : c.remote_name with _ | a
      · simp [s3, hc, copy_cell_none] at h
      · obtain ⟨q1, e1, e2, _⟩ := copy_cell_later sp _ rds s2.2 _ (grows_refl _) a hc
        have : q = q1 := by simpa [s3, e1] using h.symm
        have := grows_length G2; omega
    · rcases hc : c.iplist with _ | a
      · simp [s4, hc, copy_cell_none] at h
      · obtain ⟨q1, e1, e2, _⟩ := copy_cell_later sp _ rdl s3.2 _ (grows_refl _) a hc
        have : q = q1 := by simpa [s4, e1] using h.symm
        have := grows_length G3; omega
  rw [hdef]
  refine ⟨⟨rfl, rfl, rfl, rfl, rfl, rfl, rfl, rfl, rfl, rfl⟩, ⟨rfl, rfl⟩, ⟨?_, ?_, ?_, ?_⟩,
    fun i hi => grows_get G5 i hi, ?_⟩
  · rcases hc : c.local_ipaddr with _ | a
    · simp [s1, hc, copy_cell_none]
    · obtain ⟨q1, e1, _, e3⟩ := copy_cell_later sp _ rda w0 _ l1 a hc
      have ha : w0.addr_at a = w.addr_at a :=
        addr_at_congr _ _ _ (grows_get g0 a (v1 a hc))
      rw [show s1.1 = some q1 from e1]
      exact congrArg some ((addr_at_of_get _ q1 sp _ e3).trans ha)
  · rcases hc : c.remote_ipaddr with _ | a
    · simp [s2, hc, copy_cell_none]
    · obtain ⟨q1, e1, _, e3⟩ := copy_cell_later sp _ rda s1.2 _ l2 a hc
      have ha : s1.2.addr_at a = w.addr_at a :=
        addr_at_congr _ _ _ (grows_get G1 a (v2 a hc))
      rw [show s2.1 = some q1 from e1]
      exact congrArg some ((addr_at_of_get _ q1 sp _ e3).trans ha)
  · rcases hc : c.remote_name with _ | a
    · simp [s3, hc, copy_cell_none]
    · obtain ⟨q1, e1, _, e3⟩ := copy_cell_later sp _ rds s2.2 _ l3 a hc
      have ha : s2.2.str_at a = w.str_at a :=
        str_at_congr _ _ _ (grows_get G2 a (v3 a hc))
      rw [show s3.1 = some q1 from e1]
      exact congrArg some ((str_at_of_get _ q1 sp _ e3).trans (congrArg cstr ha))
  · rcases hc : c.iplist with _ | a
    · simp [s4, hc, copy_cell_none]
    · obtain ⟨q1, e1, _, e3⟩ := copy_cell_later sp _ rdl s3.2 _ g5 a hc
      have ha : s3.2.array_at a = w.array_at a :=
        array_at_congr _ _ _ (grows_get G3 a (v4 a hc))
      rw [show s4.1 = some q1 from e1]
      exact congrArg some ((array_at_of_get _ q1 sp _ e3).trans ha)
  · intro q v hq
    have hfresh := fresh q hq
    have key : ∀ i, i < w.heap.length →
        ((s4.2.log (.register_cleanup sp)).store q v).heap.get? i = w.heap.get? i := by
      intro i hi
      rw [store_other _ _ _ _ (by omega), grows_get G5 i hi]
    exact ⟨key, fun s hs => str_at_congr _ _ _ (key s (v3 s hs)),
      fun a ha => addr_at_congr _ _ _ (key a (v1 a ha)),
      fun a ha => addr_at_congr _ _ _ (key a (v2 a ha)),
      fun l hl => array_at_congr _ _ _ (key l (v4 l hl))⟩

theorem conn_with_names_valid : conn_valid conn_with_names world_with_names := by
  refine ⟨fun a h => ?_, fun a h => ?_, fun a h => ?_, fun a h => ?_⟩ <;>
    · cases h
      decide

/-- C6 at a concrete input: the copy of a connection named "peer" is named
"peer", and whatever is stored through the copy's name pointer, the source's
name still reads "peer". -/
theorem copy_connection_spec_witness :
    (inet_copy_connection 0 conn_with_names world_with_names).1.remote_name.map
        (inet_copy_connection 0 conn_with_names world_with_names).2.str_at =
      some "peer".toList ∧
    ∀ q v, (inet_copy_connection 0 conn_with_names world_with_names).1.remote_name = some q →
      ((inet_copy_connection 0 conn_with_names world_with_names).2.store q v).str_at 2 =
        "peer".toList :=
  ⟨(copy_connection_spec 0 conn_with_names world_with_names conn_with_names_valid).2.2.1.2.2.1,
   fun q v h =>
    ((copy_connection_spec 0 conn_with_names world_with_names conn_with_names_valid).2.2.2.2
      q v (Or.inr (Or.inr (Or.inl h)))).2.1 2 rfl⟩

theorem setnonblock_calls (E : Env) (c : conn_t) (w : World) (k : Sys)
    (hk : k ≠ .getfl ∧ k ≠ .setfl) : (inet_setnonblock E c w).2.calls k = w.calls k := by
  unfold inet_setnonblock
  simp only []
  split_ifs <;> simp [syscall_calls, hk.1, hk.2]

theorem setblock_calls (E : Env) (c : conn_t) (w : World) (k : Sys)
    (hk : k ≠ .getfl ∧ k ≠ .setfl) : (inet_setblock E c w).2.calls k = w.calls k := by
  unfold inet_setblock
  simp only []
  split_ifs <;> simp [syscall_calls, hk.1, hk.2]

/-- C7: the three outcomes of `inet_accept_nowait`, by what `accept`
answers.  Would-block: -1 is returned, the mode is `CM_LISTEN`, `xerrno` is
0.  Any other error `e`: -1 is returned, the mode is `CM_ERROR`, `xerrno` is
`e`.  Success with descriptor `fd`: `fd` is returned and the mode is
`CM_ACCEPT`.  In particular a listening connection with no client pending is
listening afterwards. -/
theorem accept_nowait_outcomes (E : Env) (c : conn_t) (w : World) :
    (E.sys .accept (w.calls .accept) = .fail EWOULDBLOCK →
      (inet_accept_nowait E c w).1 = -1 ∧
      (inet_accept_nowait E c w).2.1.mode = CM_LISTEN ∧
      (inet_accept_nowait E c w).2.1.xerrno = 0) ∧
    (∀ e, e ≠ EWOULDBLOCK → E.sys .accept (w.calls .accept) = .fail e →
      (inet_accept_nowait E c w).1 = -1 ∧
      (inet_accept_nowait E c w).2.1.mode = CM_ERROR ∧
      (inet_accept_nowait E c w).2.1.xerrno = e) ∧
    (∀ fd, fd ≠ -1 → E.sys .accept (w.calls .accept) = .ok fd →
      (inet_accept_nowait E c w).1 = fd ∧
      (inet_accept_nowait E c w).2.1.mode = CM_ACCEPT) := by
  have hcalls : (if c.mode = CM_LISTEN then (inet_setnonblock E c w).2 else w).calls .accept =
      w.calls .accept := by
    split_ifs
    · exact setnonblock_calls E c w .accept (by decide)
    · rfl
  unfold inet_accept_nowait
  refine ⟨fun h => ?_, fun e he h => ?_, fun fd hfd h => ?_⟩
  · rw [← hcalls] at h
    simp [syscall_fail E _ .accept _ _ h]
  · rw [← hcalls] at h
    simp [syscall_fail E _ .accept _ _ h, he]
  · rw [← hcalls] at h
    simp [syscall_ok E _ .accept _ _ h, hfd]

/-- C7 at concrete inputs: on the listener with no client pending -1 is
returned and the mode stays `CM_LISTEN`; with `accept` failing otherwise the
mode is `CM_ERROR`; with a client the new descriptor 4 is returned in mode
`CM_ACCEPT`. -/
theorem accept_nowait_outcomes_witness :
    ((inet_accept_nowait (env_failing .accept 1 EWOULDBLOCK) listener_on_3 World.init).1 = -1 ∧
      (inet_accept_nowait (env_failing .accept 1 EWOULDBLOCK) listener_on_3
        World.init).2.1.mode = CM_LISTEN ∧
      (inet_accept_nowait (env_failing .accept 1 EWOULDBLOCK) listener_on_3
        World.init).2.1.xerrno = 0) ∧
    ((inet_accept_nowait (env_failing .accept 1 EBADF) listener_on_3 World.init).1 = -1 ∧
      (inet_accept_nowait (env_failing .accept 1 EBADF) listener_on_3
        World.init).2.1.mode = CM_ERROR ∧
      (inet_accept_nowait (env_failing .accept 1 EBADF) listener_on_3
        World.init).2.1.xerrno = EBADF) ∧
    ((inet_accept_nowait (env_failing .accept 0 0) listener_on_3 World.init).1 = 4 ∧
      (inet_accept_nowait (env_failing .accept 0 0) listener_on_3
        World.init).2.1.mode = CM_ACCEPT) :=
  ⟨(accept_nowait_outcomes (env_failing .accept 1 EWOULDBLOCK) listener_on_3 World.init).1 rfl,
   (accept_nowait_outcomes (env_failing .accept 1 EBADF) listener_on_3 World.init).2.1 EBADF
      (by decide) rfl,
   (accept_nowait_outcomes (env_failing .accept 0 0) listener_on_3 World.init).2.2 4
      (by decide) rfl⟩

theorem fatal_calls_append (a b : List Event) :
    fatal_calls (a ++ b) = fatal_calls a ++ fatal_calls b := by
  simp [fatal_calls]

theorem setblock_fatal (E : Env) (c : conn_t) (w : World) :
    fatal_calls (inet_setblock E c w).2.trace = fatal_calls w.trace := by
  unfold inet_setblock
  simp only []
  split_ifs <;> simp [syscall_trace, fatal_calls_append, fatal_calls]

theorem setnonblock_fatal (E : Env) (c : conn_t) (w : World) :
    fatal_calls (inet_setnonblock E c w).2.trace = fatal_calls w.trace := by
  unfold inet_setnonblock
  simp only []
  split_ifs <;> simp [syscall_trace, fatal_calls_append, fatal_calls]

theorem get_conn_info_frame (E : Env) (c : conn_t) (fd : Int) (w : World) :
    (inet_get_conn_info E c fd w).2.1.mode = c.mode ∧
      (inet_get_conn_info E c fd w).2.1.xerrno = c.xerrno ∧
      fatal_calls (inet_get_conn_info E c fd w).2.2.trace = fatal_calls w.trace := by
  unfold inet_get_conn_info
  cases c.local_ipaddr <;> simp only [] <;> split_ifs <;>
    simp [syscall_trace, palloc, World.store, fatal_calls_append, fatal_calls]

/-- The `while` loop of `inet_connect` on `k` interrupted calls followed by
an answer `r` that is not an interruption: the loop ends with the value of
`r`, having called `connect` exactly `k + 1` times. -/
theorem connect_loop_spec (E : Env) (fd : Int) (addr : Nat) (port : Int) (r : SysRes)
    (hr : r ≠ .fail EINTR) (hr1 : r ≠ .ok (-1)) (k : Nat) :
    ∀ (fuel : Nat) (w : World),
      (∀ j, j < k → E.sys .connect (w.calls .connect + j) = .fail EINTR) →
      E.sys .connect (w.calls .connect + k) = r →
      ∃ w1, connect_loop E fd addr port (fuel + (k + 1)) w = some (r.val, w1) ∧
        (∀ e, r = .fail e → w1.errno = e) ∧
        w1.calls .connect = w.calls .connect + (k + 1) ∧
        fatal_calls w1.trace = fatal_calls w.trace := by
  induction k with
  | zero =>
    intro fuel w _ h0
    rw [Nat.add_zero] at h0
    rw [connect_loop]
    cases r with
    | ok v =>
      have hv : v ≠ -1 := fun h => hr1 (by rw [h])
      simp [syscall_ok E w .connect _ _ h0, hv, SysRes.val, fatal_calls_append, fatal_calls]
    | fail e =>
      have he : e ≠ EINTR := fun h => hr (by rw [h])
      simp [syscall_fail E w .connect _ _ h0, he, SysRes.val, fatal_calls_append, fatal_calls]
  | succ k ih =>
    intro fuel w hk hr2
    have h0 := hk 0 (Nat.succ_pos _)
    rw [Nat.add_zero] at h0
    have e : fuel + (k + 1 + 1) = (fuel + (k + 1)) + 1 := by omega
    rw [e, connect_loop]
    simp only [syscall_fail E w .connect _ _ h0, beq_self_eq_true, Bool.and_self, if_true]
    obtain ⟨w1, h1, h2, h3, h4⟩ := ih fuel
      { w with calls := fun j => if j = Sys.connect then w.calls .connect + 1 else w.calls j,
               trace := w.trace ++ [.connect fd addr (port % 65536)], errno := EINTR }
      (fun j hj => by
        have := hk (j + 1) (by omega)
        simpa [Nat.add_assoc, Nat.add_comm 1 j] using this)
      (by simpa [Nat.add_assoc, Nat.add_comm 1 k] using hr2)
    refine ⟨w1, h1, h2, ?_, ?_⟩
    · rw [h3]; simp; omega
    · rw [h4]; simp [fatal_calls_append, fatal_calls]

/-- What `inet_connect` does when `connect` is interrupted `k` times and
then answers `r`: failure gives -1, `CM_ERROR` and the error code in
`xerrno`; success gives 1 and `CM_OPEN`; `end_login` is not called. -/
theorem connect_spec (E : Env) (fuel : Nat) (c : conn_t) (addr : Nat) (port : Int) (w : World)
    (k : Nat) (r : SysRes) (hr : r ≠ .fail EINTR) (hr1 : r ≠ .ok (-1))
    (hk : ∀ j, j < k → E.sys .connect (w.calls .connect + j) = .fail EINTR)
    (hrk : E.sys .connect (w.calls .connect + k) = r) (hfuel : k < fuel) :
    ∃ c1 w1, inet_connect E fuel c addr port w = .ret (connect_status r, c1) w1 ∧
      c1.mode = connect_mode r ∧
      (∀ e, r = .fail e → c1.xerrno = e) ∧
      fatal_calls w1.trace = fatal_calls w.trace := by
  have hc := setblock_calls E c w .connect (by decide)
  have hf := setblock_fatal E c w
  obtain ⟨f, rfl⟩ : ∃ f, fuel = f + (k + 1) := ⟨fuel - (k + 1), by omega⟩
  obtain ⟨w1, h1, h2, h3, h4⟩ := connect_loop_spec E c.listen_fd addr port r hr hr1 k f
    (inet_setblock E c w).2 (fun j hj => by rw [hc]; exact hk j hj) (by rw [hc]; exact hrk)
  unfold inet_connect
  simp only [h1]
  cases r with
  | fail e =>
    simp only [SysRes.val, beq_self_eq_true, if_true]
    exact ⟨_, _, rfl, rfl, fun e1 he1 => (by cases he1; exact h2 e rfl), (by rw [h4, hf])⟩
  | ok v =>
    have hv : v ≠ -1 := fun h => hr1 (by rw [h])
    have hb : (v == -1) = false := by simpa using hv
    obtain ⟨g1, g2, g3⟩ := get_conn_info_frame E { c with mode := CM_OPEN } c.listen_fd w1
    simp only [SysRes.val, hb, Bool.false_eq_true, if_false]
    exact ⟨_, _, rfl, g1, fun e1 he1 => (by cases he1), (by rw [setblock_fatal, g3, h4, hf])⟩

/-- C8: in `inet_connect`, with `connect` interrupted any number `k` of
times first, a final error `e` other than `EINTR` makes the function return
-1 with mode `CM_ERROR` and `xerrno = e`, which is not 0, and a final success
makes it return 1 with mode `CM_OPEN`; so -1 is returned exactly when the
call ends with such an error.  In neither case is `end_login` called. -/
theorem connect_outcomes (E : Env) (fuel : Nat) (c : conn_t) (addr : Nat) (port : Int)
    (w : World) (k : Nat)
    (hk : ∀ j, j < k → E.sys .connect (w.calls .connect + j) = .fail EINTR)
    (hfuel : k < fuel) :
    (∀ e, e ≠ EINTR → 0 < e → E.sys .connect (w.calls .connect + k) = .fail e →
      ∃ c1 w1, inet_connect E fuel c addr port w = .ret (-1, c1) w1 ∧
        c1.mode = CM_ERROR ∧ c1.xerrno = e ∧ c1.xerrno ≠ 0 ∧
        fatal_calls w1.trace = fatal_calls w.trace) ∧
    (∀ v, v ≠ -1 → E.sys .connect (w.calls .connect + k) = .ok v →
      ∃ c1 w1, inet_connect E fuel c addr port w = .ret (1, c1) w1 ∧
        c1.mode = CM_OPEN ∧ fatal_calls w1.trace = fatal_calls w.trace) := by
  constructor
  · intro e he hpos hr
    obtain ⟨c1, w1, h1, h2, h3, h4⟩ := connect_spec E fuel c addr port w k (.fail e)
      (fun h => he (by cases h; rfl)) (by simp) hk hr hfuel
    have hx := h3 e rfl
    exact ⟨c1, w1, h1, h2, hx, by rw [hx]; omega, h4⟩
  · intro v hv hr
    obtain ⟨c1, w1, h1, h2, _, h4⟩ := connect_spec E fuel c addr port w k (.ok v)
      (by simp) (fun h => hv (by cases h; rfl)) hk hr hfuel
    exact ⟨c1, w1, h1, h2, h4⟩

/-- C8 at concrete inputs: a refused connection (errno 111) gives -1, and a
connection that succeeds after two interruptions gives 1. -/
theorem connect_outcomes_witness :
    (∃ c1 w1, inet_connect (env_failing .connect 1 111) 5 listener_on_3 2130706433 21
        World.init = .ret (-1, c1) w1 ∧ c1.mode = CM_ERROR ∧ c1.xerrno = 111 ∧ c1.xerrno ≠ 0 ∧
        fatal_calls w1.trace = fatal_calls World.init.trace) ∧
    (∃ c1 w1, inet_connect (env_failing .connect 2 EINTR) 5 listener_on_3 2130706433 21
        World.init = .ret (1, c1) w1 ∧ c1.mode = CM_OPEN ∧
        fatal_calls w1.trace = fatal_calls World.init.trace) :=
  ⟨(connect_outcomes (env_failing .connect 1 111) 5 listener_on_3 2130706433 21 World.init 0
      (by decide) (by decide)).1 111 (by decide) (by decide) rfl,
   (connect_outcomes (env_failing .connect 2 EINTR) 5 listener_on_3 2130706433 21 World.init 2
      (by decide) (by decide)).2 0 (by decide) rfl⟩

/-- The loop of `inet_listen` on `k` interrupted calls followed by an answer
`r` that is not an interruption: success sets `CM_LISTEN` and returns 0, any
other error ends in `end_login(1)`. -/
theorem listen_loop_spec (E : Env) (c : conn_t) (backlog : Int) (r : SysRes)
    (hr : r ≠ .fail EINTR) (hr1 : r ≠ .ok (-1)) (k : Nat) :
    ∀ (fuel : Nat) (w : World),
      (∀ j, j < k → E.sys .listen (w.calls .listen + j) = .fail EINTR) →
      E.sys .listen (w.calls .listen + k) = r →
      ∃ w1, listen_loop E c backlog (fuel + (k + 1)) w = listen_outcome c r w1 ∧
        w1.calls .listen = w.calls .listen + (k + 1) := by
  induction k with
  | zero =>
    intro fuel w _ h0
    rw [Nat.add_zero] at h0
    rw [listen_loop]
    cases r with
    | ok v =>
      have hv : (v == -1) = false := by
        have : v ≠ -1 := fun h => hr1 (by rw [h])
        simpa using this
      simp only [syscall_ok E w .listen _ _ h0, hv, Bool.false_eq_true, if_false]
      exact ⟨_, rfl, by simp⟩
    | fail e =>
      have he : (e == EINTR) = false := by
        have : e ≠ EINTR := fun h => hr (by rw [h])
        simpa using this
      simp only [syscall_fail E w .listen _ _ h0, beq_self_eq_true, if_true, he,
        Bool.false_eq_true, if_false]
      exact ⟨_, rfl, by simp [World.log]⟩
  | succ k ih =>
    intro fuel w hk hr2
    have h0 := hk 0 (Nat.succ_pos _)
    rw [Nat.add_zero] at h0
    have e : fuel + (k + 1 + 1) = (fuel + (k + 1)) + 1 := by omega
    rw [e, listen_loop]
    simp only [syscall_fail E w .listen _ _ h0, beq_self_eq_true, if_true]
    obtain ⟨w1, h1, h3⟩ := ih fuel
      { w with calls := fun j => if j = Sys.listen then w.calls .listen + 1 else w.calls j,
               trace := w.trace ++ [.listen c.listen_fd backlog], errno := EINTR }
      (fun j hj => by
        have := hk (j + 1) (by omega)
        simpa [Nat.add_assoc, Nat.add_comm 1 j] using this)
      (by simpa [Nat.add_assoc, Nat.add_comm 1 k] using hr2)
    exact ⟨w1, h1, by rw [h3]; simp; omega⟩

/-- C9, as stated, fails: when `accept` or a non-blocking `connect` is
interrupted, `inet_accept_nowait`, `inet_connect_nowait` and `inet_accept`
do not retry; they return failure with mode `CM_ERROR` and
`xerrno = EINTR`. -/
theorem eintr_surfaced_counterexample :
    ((inet_accept_nowait (env_failing .accept 1 EINTR) listener_on_3 World.init).1 = -1 ∧
      (inet_accept_nowait (env_failing .accept 1 EINTR) listener_on_3
        World.init).2.1.mode = CM_ERROR ∧
      (inet_accept_nowait (env_failing .accept 1 EINTR) listener_on_3
        World.init).2.1.xerrno = EINTR) ∧
    ((inet_connect_nowait (env_failing .connect 1 EINTR) listener_on_3 2130706433 21
        World.init).1 = -1 ∧
      (inet_connect_nowait (env_failing .connect 1 EINTR) listener_on_3 2130706433 21
        World.init).2.1.mode = CM_ERROR ∧
      (inet_connect_nowait (env_failing .connect 1 EINTR) listener_on_3 2130706433 21
        World.init).2.1.xerrno = EINTR) ∧
    (∃ w1, inet_accept (env_failing .accept 1 EINTR) 0 listener_on_3 (-1) (-1) 0 World.init =
      .ret ({ listener_on_3 with mode := CM_ERROR, xerrno := EINTR }, none) w1) := by
  refine ⟨by decide, by decide, ⟨_, rfl⟩⟩

/-- C9 (amended): `inet_listen` and `inet_connect` retry an interrupted call
and never surface it: after any number `k` of interruptions the outcome is
that of the answer that follows (for `inet_listen`, 0 and `CM_LISTEN` on
success with nothing else changed, `end_login` on another error; for
`inet_connect`, 1 and `CM_OPEN` on success, -1, `CM_ERROR` and that other
error code on failure).  `inet_connect_nowait`, `inet_accept_nowait` and
`inet_accept` make a single call and treat `EINTR` as any other error: they
return failure with mode `CM_ERROR` and `xerrno = EINTR`. -/
theorem eintr_handling (E : Env) (c : conn_t) (w : World) :
    (∀ (k fuel : Nat) (backlog : Int) (r : SysRes), k < fuel → c.mode ≠ CM_LISTEN →
      r ≠ .fail EINTR → r ≠ .ok (-1) →
      (∀ j, j < k → E.sys .listen (w.calls .listen + j) = .fail EINTR) →
      E.sys .listen (w.calls .listen + k) = r →
      ∃ w1, inet_listen E fuel (some c) backlog w = listen_outcome c r w1) ∧
    (∀ (k fuel addr : Nat) (port : Int) (r : SysRes), k < fuel →
      r ≠ .fail EINTR → r ≠ .ok (-1) →
      (∀ j, j < k → E.sys .connect (w.calls .connect + j) = .fail EINTR) →
      E.sys .connect (w.calls .connect + k) = r →
      ∃ c1 w1, inet_connect E fuel c addr port w = .ret (connect_status r, c1) w1 ∧
        c1.mode = connect_mode r ∧
        (∀ e, r = .fail e → c1.xerrno = e)) ∧
    (∀ (addr : Nat) (port : Int), E.sys .connect (w.calls .connect) = .fail EINTR →
      (inet_connect_nowait E c addr port w).1 = -1 ∧
      (inet_connect_nowait E c addr port w).2.1.mode = CM_ERROR ∧
      (inet_connect_nowait E c addr port w).2.1.xerrno = EINTR) ∧
    (E.sys .accept (w.calls .accept) = .fail EINTR →
      (inet_accept_nowait E c w).1 = -1 ∧
      (inet_accept_nowait E c w).2.1.mode = CM_ERROR ∧
      (inet_accept_nowait E c w).2.1.xerrno = EINTR) ∧
    (∀ (pool : Nat) (rfd wfd resolve : Int), E.sys .accept (w.calls .accept) = .fail EINTR →
      ∃ w1, inet_accept E pool c rfd wfd resolve w =
        .ret ({ c with mode := CM_ERROR, xerrno := EINTR }, none) w1) := by
  refine ⟨?_, ?_, ?_, ?_, ?_⟩
  · intro k fuel backlog r hfuel hm hr hr1 hk hrk
    obtain ⟨f, rfl⟩ : ∃ f, fuel = f + (k + 1) := ⟨fuel - (k + 1), by omega⟩
    obtain ⟨w1, h1, _⟩ := listen_loop_spec E c backlog r hr hr1 k f w hk hrk
    exact ⟨w1, by simp only [inet_listen, hm, if_false]; exact h1⟩
  · intro k fuel addr port r hfuel hr hr1 hk hrk
    obtain ⟨c1, w1, h1, h2, h3, _⟩ := connect_spec E fuel c addr port w k r hr hr1 hk hrk hfuel
    exact ⟨c1, w1, h1, h2, h3⟩
  · intro addr port h
    have hc := setnonblock_calls E c w .connect (by decide)
    rw [← hc] at h
    unfold inet_connect_nowait
    simp [syscall_fail E _ .connect _ _ h, EINTR, EINPROGRESS, EALREADY]
  · intro h
    have hcalls : (if c.mode = CM_LISTEN then (inet_setnonblock E c w).2 else w).calls .accept =
        w.calls .accept := by
      split_ifs
      · exact setnonblock_calls E c w .accept (by decide)
      · rfl
    rw [← hcalls] at h
    unfold inet_accept_nowait
    simp [syscall_fail E _ .accept _ _ h, EINTR, EWOULDBLOCK]
  · intro pool rfd wfd resolve h
    unfold inet_accept
    simp only [syscall_fail E w .accept _ _ h]
    exact ⟨_, rfl⟩

/-- C9 (amended) at concrete inputs: `inet_listen` and `inet_connect` get
through two interruptions, the other three operations report the first
one. -/
theorem eintr_handling_witness :
    (∃ w1, inet_listen (env_failing .listen 2 EINTR) 5 (some conn_on_3) 5 World.init =
      .ret (0, some { conn_on_3 with mode := CM_LISTEN }) w1) ∧
    (∃ c1 w1, inet_connect (env_failing .connect 2 EINTR) 5 conn_on_3 2130706433 21
        World.init = .ret (1, c1) w1 ∧ c1.mode = CM_OPEN) ∧
    (inet_connect_nowait (env_failing .connect 1 EINTR) conn_on_3 2130706433 21
        World.init).2.1.xerrno = EINTR ∧
    (inet_accept_nowait (env_failing .accept 1 EINTR) conn_on_3 World.init).2.1.xerrno = EINTR ∧
    (∃ w1, inet_accept (env_failing .accept 1 EINTR) 0 conn_on_3 (-1) (-1) 0 World.init =
      .ret ({ conn_on_3 with mode := CM_ERROR, xerrno := EINTR }, none) w1) :=
  ⟨(eintr_handling (env_failing .listen 2 EINTR) conn_on_3 World.init).1 2 5 5 (.ok 0)
      (by decide) (by decide) (by decide) (by decide) (by decide) rfl,
   (fun h => ⟨h.choose, h.choose_spec.choose, h.choose_spec.choose_spec.1,
      h.choose_spec.choose_spec.2.1⟩)
    ((eintr_handling (env_failing .connect 2 EINTR) conn_on_3 World.init).2.1 2 5 2130706433 21
      (.ok 0) (by decide) (by decide) (by decide) (by decide) rfl),
   ((eintr_handling (env_failing .connect 1 EINTR) conn_on_3 World.init).2.2.1 2130706433 21
      rfl).2.2,
   ((eintr_handling (env_failing .accept 1 EINTR) conn_on_3 World.init).2.2.2.1 rfl).2.2,
   (eintr_handling (env_failing .accept 1 EINTR) conn_on_3 World.init).2.2.2.2 0 (-1) (-1) 0 rfl⟩

theorem sleeps_append (a b : List Event) : sleeps (a ++ b) = sleeps a ++ sleeps b := by
  simp [sleeps]

theorem after_prebind_conflict_spec (s : Int) (addr : Nat) (port tries : Int) (w : World) :
    (after_prebind_conflict s addr port tries w).calls =
        (fun j => if j = Sys.bind then w.calls .bind + 1 else w.calls j) ∧
      sleeps (after_prebind_conflict s addr port tries w).trace = sleeps w.trace ++ [tries] := by
  unfold after_prebind_conflict
  cases privileged port <;>
    simp [priv_leave, priv_enter, World.log, sleeps_append, sleeps]

theorem prebind_loop_conflict (E : Env) (s : Int) (addr : Nat) (port : Int) (fuel : Nat)
    (tries res : Int) (w : World) (ht : tries < 10)
    (hb : E.sys .bind (w.calls .bind) = .fail EADDRINUSE) :
    prebind_loop E s addr port (fuel + 1) tries res w =
      prebind_loop E s addr port fuel (tries + 1) res (after_prebind_conflict s addr port tries w) := by
  rw [prebind_loop]
  simp only [syscall_fail E w .bind _ _ hb]
  simp [ht, after_prebind_conflict]

theorem prebind_loop_ok (E : Env) (s : Int) (addr : Nat) (port : Int) (fuel : Nat)
    (tries res v : Int) (w : World) (ht : tries < 10) (hv : 0 ≤ v)
    (hb : E.sys .bind (w.calls .bind) = .ok v) :
    prebind_loop E s addr port (fuel + 1) tries res w =
      (s, { w with calls := fun j => if j = Sys.bind then w.calls .bind + 1 else w.calls j,
                   trace := w.trace ++ [.bind s addr (port % 65536)] }) := by
  rw [prebind_loop]
  simp only [syscall_ok E w .bind _ _ hb]
  simp [ht, hv]

/-- The seconds slept before attempts `tries + 1`, ..., `tries + k`. -/
theorem prebind_loop_conflicts (E : Env) (s : Int) (addr : Nat) (port : Int) (k : Nat) :
    ∀ (fuel : Nat) (tries res : Int) (w : World), tries + k ≤ 10 →
      (∀ j, j < k → E.sys .bind (w.calls .bind + j) = .fail EADDRINUSE) →
      ∃ w1, prebind_loop E s addr port (fuel + k) tries res w =
          prebind_loop E s addr port fuel (tries + k) res w1 ∧
        w1.calls .bind = w.calls .bind + k ∧
        sleeps w1.trace = sleeps w.trace ++ (List.range k).map (fun i : Nat => tries + Int.ofNat i) := by
  induction k with
  | zero =>
    intro fuel tries res w _ _
    exact ⟨w, by simp, by simp, by simp⟩
  | succ k ih =>
    intro fuel tries res w ht hb
    have h0 := hb 0 (Nat.succ_pos _)
    rw [Nat.add_zero] at h0
    obtain ⟨c1, c2⟩ := after_prebind_conflict_spec s addr port tries w
    obtain ⟨w1, h1, h2, h3⟩ := ih fuel (tries + 1) res (after_prebind_conflict s addr port tries w)
      (by push_cast at ht; omega)
      (fun j hj => by
        rw [c1]
        have := hb (j + 1) (by omega)
        simpa [Nat.add_assoc, Nat.add_comm 1 j] using this)
    refine ⟨w1, ?_, ?_, ?_⟩
    · have e : fuel + (k + 1) = (fuel + k) + 1 := by omega
      rw [e, prebind_loop_conflict E s addr port _ tries res w (by push_cast at ht; omega) h0, h1]
      congr 1
      push_cast
      omega
    · rw [h2, c1]; simp; omega
    · rw [h3, c2, List.range_succ_eq_map]
      simp only [List.map_cons, List.map_map, List.append_assoc, List.singleton_append,
        Int.ofNat_zero, add_zero]
      congr 2
      · simp
      · apply List.map_congr_left
        intro i _
        simp only [Function.comp_apply, Int.ofNat_eq_coe, Nat.cast_succ]
        omega

theorem priv_leave_ite (b : Bool) (w : World) :
    (if b = true then priv_leave w else w).calls = w.calls ∧
      sleeps (if b = true then priv_leave w else w).trace = sleeps w.trace := by
  cases b <;> simp [priv_leave, World.log, sleeps_append, sleeps]

theorem priv_enter_ite (b : Bool) (w : World) :
    (if b = true then priv_enter w else w).calls = w.calls ∧
      sleeps (if b = true then priv_enter w else w).trace = sleeps w.trace := by
  cases b <;> simp [priv_enter, World.log, sleeps_append, sleeps]

/-- The loop of `inet_prebind_socket` entered with `tries` calls `bind` at
most `10 - tries` times, whatever `bind` answers. -/
theorem prebind_loop_bound (E : Env) (s : Int) (addr : Nat) (port : Int) (fuel : Nat) :
    ∀ (tries res : Int) (w : World), 1 ≤ tries →
      (prebind_loop E s addr port fuel tries res w).2.calls .bind ≤
        w.calls .bind + (10 - tries).toNat := by
  induction fuel with
  | zero => intro tries res w _; simp [prebind_loop]
  | succ fuel ih =>
    intro tries res w ht
    rw [prebind_loop]
    by_cases h10 : tries < 10
    · simp only [h10, if_true]
      have hc := syscall_calls E w .bind (.bind s addr (port % 65536))
      by_cases h1 : (w.syscall E .bind (.bind s addr (port % 65536))).1 ≥ 0
      · simp only [h1, if_true, hc]; omega
      · simp only [h1, if_false]
        by_cases h2 : ((w.syscall E .bind (.bind s addr (port % 65536))).2.errno != EADDRINUSE)
            = true
        · simp only [h2, if_true, hc]; omega
        · simp only [h2, Bool.false_eq_true, if_false]
          refine le_trans (ih (tries + 1) res _ (by omega)) ?_
          rw [(priv_enter_ite _ _).1]
          show (if privileged port = true then
              priv_leave (w.syscall E .bind (.bind s addr (port % 65536))).2
            else (w.syscall E .bind (.bind s addr (port % 65536))).2).calls .bind + _ ≤ _
          rw [(priv_leave_ite _ _).1, hc]
          simp only [if_true]
          omega
    · simp [h10]

theorem prebind_reaches_loop (E : Env) (bind_addr : Option Nat) (port s : Int) (w : World)
    (hsock : E.sys .socket (w.calls .socket) = .ok s) (hs : 0 ≤ s) :
    ∃ w0 addr, w0.calls .bind = w.calls .bind ∧ sleeps w0.trace = sleeps w.trace ∧
      inet_prebind_socket E bind_addr port w =
        ((prebind_loop E s addr port 10 1 (-1) w0).1,
          { (if privileged port = true then priv_leave (prebind_loop E s addr port 10 1 (-1) w0).2
              else (prebind_loop E s addr port 10 1 (-1) w0).2) with
            errno := (prebind_loop E s addr port 10 1 (-1) w0).2.errno }) := by
  unfold inet_prebind_socket
  have h1 : ∀ b : Bool, E.sys .socket ((if b = true then priv_enter w else w).calls .socket) =
      .ok s := by
    intro b; rw [(priv_enter_ite b w).1]; exact hsock
  have hneg : ¬ s < 0 := by omega
  simp only [World.syscall, h1, hneg, if_false]
  refine ⟨_, _, ?_, ?_, rfl⟩
  · cases privileged port <;> cases E.platform <;> simp [priv_enter, priv_leave, World.log]
  · cases privileged port <;> cases E.platform <;>
      simp [priv_enter, priv_leave, World.log, sleeps_append, sleeps]

/-- C10, as stated, fails at `k = 9`: when `bind` fails with `EADDRINUSE`
on attempts 1 to 9 and would succeed on a tenth, `inet_prebind_socket` sleeps
1, ..., 9 seconds, never makes the tenth attempt and returns -1. -/
theorem prebind_tenth_attempt_counterexample :
    (∀ j, j < 9 → (env_failing .bind 9 EADDRINUSE).sys .bind (World.init.calls .bind + j) =
        .fail EADDRINUSE) ∧
      (env_failing .bind 9 EADDRINUSE).sys .bind (World.init.calls .bind + 9) = .ok 0 ∧
      (inet_prebind_socket (env_failing .bind 9 EADDRINUSE) none 2121 World.init).1 = -1 ∧
      (inet_prebind_socket (env_failing .bind 9 EADDRINUSE) none 2121 World.init).2.calls .bind
        = 9 ∧
      sleeps (inet_prebind_socket (env_failing .bind 9 EADDRINUSE) none 2121 World.init).2.trace
        = [1, 2, 3, 4, 5, 6, 7, 8, 9] := by
  refine ⟨by decide, by decide, by decide, by decide, by decide⟩

/-- C10 (amended): `inet_prebind_socket`, the socket obtained, makes at most
9 attempts.  For every `k ≤ 8`, if `bind` fails with `EADDRINUSE` on attempts
1 to `k` and succeeds on attempt `k + 1`, the bound descriptor is returned
after sleeping 1, 2, ..., `k` seconds in that order and `k + 1` calls of
`bind`; whatever `bind` answers it is never called more than 9 times. -/
theorem prebind_retry (E : Env) (bind_addr : Option Nat) (port s : Int) (w : World)
    (hsock : E.sys .socket (w.calls .socket) = .ok s) (hs : 0 ≤ s) :
    (∀ k, k ≤ 8 →
      (∀ j, j < k → E.sys .bind (w.calls .bind + j) = .fail EADDRINUSE) →
      E.sys .bind (w.calls .bind + k) = .ok 0 →
      (inet_prebind_socket E bind_addr port w).1 = s ∧
      sleeps (inet_prebind_socket E bind_addr port w).2.trace =
        sleeps w.trace ++ (List.range k).map (fun i : Nat => 1 + Int.ofNat i) ∧
      (inet_prebind_socket E bind_addr port w).2.calls .bind = w.calls .bind + (k + 1)) ∧
    (inet_prebind_socket E bind_addr port w).2.calls .bind ≤ w.calls .bind + 9 := by
  obtain ⟨w0, addr, hc0, hs0, hdef⟩ := prebind_reaches_loop E bind_addr port s w hsock hs
  rw [hdef]
  constructor
  · intro k hk hfail hok
    obtain ⟨w1, h1, h2, h3⟩ := prebind_loop_conflicts E s addr port k (10 - k) 1 (-1) w0
      (by omega) (fun j hj => by rw [hc0]; exact hfail j hj)
    have e10 : 10 - k + k = 10 := by omega
    rw [e10] at h1
    obtain ⟨f, hf⟩ : ∃ f, 10 - k = f + 1 := ⟨10 - k - 1, by omega⟩
    rw [h1, hf, prebind_loop_ok E s addr port f _ _ 0 w1 (by omega) (le_refl 0)
      (by rw [h2, hc0]; exact hok)]
    refine ⟨rfl, ?_, ?_⟩
    · show sleeps (if privileged port = true then priv_leave _ else _).trace = _
      rw [(priv_leave_ite _ _).2]
      show sleeps (w1.trace ++ [_]) = _
      rw [sleeps_append, h3, hs0]
      simp [sleeps]
    · show (if privileged port = true then priv_leave _ else _).calls .bind = _
      rw [(priv_leave_ite _ _).1]
      simp [h2, hc0]
      omega
  · show (if privileged port = true then priv_leave _ else _).calls .bind ≤ _
    rw [(priv_leave_ite _ _).1]
    have := prebind_loop_bound E s addr port 10 1 (-1) w0 (le_refl 1)
    rw [hc0] at this
    exact this

/-- C10 (amended) at concrete inputs: after eight conflicts the ninth
attempt binds descriptor 3, the sleeps being 1 to 8 seconds. -/
theorem prebind_retry_witness :
    (inet_prebind_socket (env_failing .bind 8 EADDRINUSE) none 21 World.init).1 = 3 ∧
      sleeps (inet_prebind_socket (env_failing .bind 8 EADDRINUSE) none 21 World.init).2.trace =
        sleeps World.init.trace ++ (List.range 8).map (fun i : Nat => 1 + Int.ofNat i) ∧
      (inet_prebind_socket (env_failing .bind 8 EADDRINUSE) none 21 World.init).2.calls .bind =
        World.init.calls .bind + (8 + 1) :=
  (prebind_retry (env_failing .bind 8 EADDRINUSE) none 21 3 World.init rfl (by decide)).1 8
    (by decide) (by decide) rfl

/-- C11: `inet_listen` on the NULL connection or on a connection whose mode
is `CM_LISTEN` returns -1 with the world, hence the trace of calls, and the
connection as they were: no `listen` is issued.  On any other connection, if
`listen` succeeds after any number `k` of interruptions, it returns 0 and the
connection is the old one with mode `CM_LISTEN`, no other field changed,
after `k + 1` calls of `listen`. -/
theorem listen_outcomes (E : Env) (fuel : Nat) (backlog : Int) (w : World) :
    inet_listen E fuel none backlog w = .ret (-1, none) w ∧
    (∀ c : conn_t, c.mode = CM_LISTEN →
      inet_listen E fuel (some c) backlog w = .ret (-1, some c) w) ∧
    (∀ (c : conn_t) (k : Nat) (v : Int), c.mode ≠ CM_LISTEN → k < fuel → v ≠ -1 →
      (∀ j, j < k → E.sys .listen (w.calls .listen + j) = .fail EINTR) →
      E.sys .listen (w.calls .listen + k) = .ok v →
      ∃ w1, inet_listen E fuel (some c) backlog w =
          .ret (0, some { c with mode := CM_LISTEN }) w1 ∧
        w1.calls .listen = w.calls .listen + (k + 1)) := by
  refine ⟨rfl, fun c hc => by simp [inet_listen, hc], ?_⟩
  intro c k v hm hfuel hv hk hok
  obtain ⟨f, rfl⟩ : ∃ f, fuel = f + (k + 1) := ⟨fuel - (k + 1), by omega⟩
  obtain ⟨w1, h1, h2⟩ := listen_loop_spec E c backlog (.ok v) (by simp)
    (fun h => hv (by cases h; rfl)) k f w hk hok
  exact ⟨w1, by simp only [inet_listen, hm, if_false]; exact h1, h2⟩

/-- C11 at concrete inputs: a second `inet_listen` on the listener is
refused without a call, and a fresh connection on descriptor 3 becomes a
listener after two interruptions. -/
theorem listen_outcomes_witness :
    inet_listen (env_failing .listen 2 EINTR) 5 (some listener_on_3) 5 World.init =
      .ret (-1, some listener_on_3) World.init ∧
    ∃ w1, inet_listen (env_failing .listen 2 EINTR) 5 (some conn_on_3) 5 World.init =
        .ret (0, some { conn_on_3 with mode := CM_LISTEN }) w1 ∧
      w1.calls .listen = World.init.calls .listen + (2 + 1) :=
  ⟨(listen_outcomes (env_failing .listen 2 EINTR) 5 5 World.init).2.1 listener_on_3 rfl,
   (listen_outcomes (env_failing .listen 2 EINTR) 5 5 World.init).2.2 conn_on_3 2 0
      (by decide) (by decide) (by decide) (by decide) rfl⟩

theorem in_charset_ne_NUL (c : Char) (h : in_charset c) : c ≠ NUL := by
  intro e
  subst e
  revert h
  decide

theorem sanitize_char_idem (c : Char) : sanitize_char (sanitize_char c) = sanitize_char c := by
  unfold sanitize_char
  by_cases h : in_charset c
  · simp [h]
  · have h2 : ¬ in_charset '_' := by decide
    simp [h, h2]

theorem sanitize_char_fix (c : Char) (h : in_charset c) : sanitize_char c = c := by
  simp [sanitize_char, h]

theorem validate_loop_idem (buf : List Char) :
    inet_validate_loop (inet_validate_loop buf) = inet_validate_loop buf := by
  induction buf with
  | nil => rfl
  | cons p rest ih =>
    by_cases h : p = NUL
    · have e : inet_validate_loop (p :: rest) = p :: rest := by
        rw [inet_validate_loop, if_pos h]
      rw [e, e]
    · have e : inet_validate_loop (p :: rest) = sanitize_char p :: inet_validate_loop rest := by
        rw [inet_validate_loop, if_neg h, validate_step]
      rw [e, inet_validate_loop, if_neg (sanitize_char_ne_NUL p h), validate_step,
        sanitize_char_idem, ih]

theorem validate_loop_fix (s : List Char) (h : ∀ c ∈ s, in_charset c) :
    inet_validate_loop s = s := by
  induction s with
  | nil => rfl
  | cons p rest ih =>
    have hp := h p (List.mem_cons_self _ _)
    rw [inet_validate_loop, if_neg (in_charset_ne_NUL p hp), validate_step,
      sanitize_char_fix p hp, ih (fun c hc => h c (List.mem_cons_of_mem _ hc))]

theorem digitChar_in_charset (n : Nat) (h : n < 10) : in_charset (Nat.digitChar n) := by
  interval_cases n <;> decide

theorem toDigitsCore_in_charset (fuel : Nat) :
    ∀ (n : Nat) (ds : List Char), (∀ c ∈ ds, in_charset c) →
      ∀ c ∈ Nat.toDigitsCore 10 fuel n ds, in_charset c := by
  induction fuel with
  | zero => intro n ds h; simpa [Nat.toDigitsCore] using h
  | succ fuel ih =>
    intro n ds h
    have hd : in_charset (Nat.digitChar (n % 10)) :=
      digitChar_in_charset _ (Nat.mod_lt _ (by decide))
    have hds : ∀ c ∈ Nat.digitChar (n % 10) :: ds, in_charset c := by
      intro c hc
      rcases List.mem_cons.1 hc with e | e
      · rw [e]; exact hd
      · exact h c e
    rw [Nat.toDigitsCore]
    split
    · exact hds
    · exact ih _ _ hds

theorem repr_in_charset (n : Nat) : ∀ c ∈ (Nat.repr n).toList, in_charset c := by
  have : (Nat.repr n).toList = Nat.toDigitsCore 10 (n + 1) n [] := rfl
  rw [this]
  exact toDigitsCore_in_charset _ _ _ (by simp)

theorem inet_ntoa_in_charset (a : Nat) : ∀ c ∈ inet_ntoa a, in_charset c := by
  intro c hc
  unfold inet_ntoa at hc
  have hdot : in_charset '.' := by decide
  simp only [List.mem_append, List.mem_cons] at hc
  rcases hc with ((h | h | h) | h | h) | h | h
  · exact repr_in_charset _ c h
  · rw [h]; exact hdot
  · exact repr_in_charset _ c h
  · rw [h]; exact hdot
  · exact repr_in_charset _ c h
  · rw [h]; exact hdot
  · exact repr_in_charset _ c h

/-- C15: `inet_validate` is idempotent on every buffer (and on NULL), it
returns unchanged every string made only of characters of `[A-Za-z0-9.-]`,
and in particular the dotted-quad text `inet_ntoa` gives for any address,
which is what `inet_getname` validates when no host name is found. -/
theorem inet_validate_idempotent :
    (∀ buf : Option (List Char), inet_validate (inet_validate buf) = inet_validate buf) ∧
    (∀ s : List Char, (∀ c ∈ s, in_charset c) → inet_validate (some s) = some s) ∧
    (∀ a : Nat, inet_validate (some (inet_ntoa a)) = some (inet_ntoa a)) := by
  refine ⟨fun buf => ?_, fun s h => ?_, fun a => ?_⟩
  · cases buf with
    | none => rfl
    | some b => simp [inet_validate, validate_loop_idem]
  · simp [inet_validate, validate_loop_fix s h]
  · simp [inet_validate, validate_loop_fix _ (inet_ntoa_in_charset a)]

/-- C15 at concrete inputs: "ftp-1.example.org" is returned as it is, and so
is the text of 127.0.0.1. -/
theorem inet_validate_idempotent_witness :
    inet_validate (some "ftp-1.example.org".toList) = some "ftp-1.example.org".toList ∧
      inet_validate (some (inet_ntoa 2130706433)) = some "127.0.0.1".toList :=
  ⟨inet_validate_idempotent.2.1 "ftp-1.example.org".toList (by decide),
   inet_validate_idempotent.2.2 2130706433⟩

theorem priv_run_append (a b : List Event) :
    ∀ s, priv_run s (a ++ b) = (priv_run s a).bind (fun s1 => priv_run s1 b) := by
  induction a with
  | nil => intro s; rfl
  | cons e es ih =>
    intro s
    simp only [List.cons_append, priv_run]
    cases priv_step s e with
    | none => rfl
    | some s1 => exact ih s1

theorem priv_at_trace {w w1 : World} {s s1 : PrivState} (e : Event) (h : priv_at w s)
    (ht : w1.trace = w.trace ++ [e]) (hs : priv_step s e = some s1) : priv_at w1 s1 := by
  unfold priv_at at *
  rw [ht, priv_run_append, h]
  simp [priv_run, hs]

theorem priv_at_same {w w1 : World} {s : PrivState} (h : priv_at w s)
    (ht : w1.trace = w.trace) : priv_at w1 s := by
  unfold priv_at at *
  rw [ht, h]

theorem priv_at_log {w : World} {s s1 : PrivState} (e : Event) (h : priv_at w s)
    (hs : priv_step s e = some s1) : priv_at (w.log e) s1 :=
  priv_at_trace e h rfl hs

theorem priv_at_syscall (E : Env) {w : World} {s s1 : PrivState} (k : Sys) (e : Event)
    (h : priv_at w s) (hs : priv_step s e = some s1) : priv_at (w.syscall E k e).2 s1 :=
  priv_at_trace e h (syscall_trace E w k e) hs

theorem priv_at_enter {w : World} (h : priv_at w .idle) : priv_at (priv_enter w) .elevated :=
  priv_at_log _ (priv_at_log _ h rfl) rfl

theorem priv_at_leave {w : World} (h : priv_at w .elevated) : priv_at (priv_leave w) .idle :=
  priv_at_log _ (priv_at_log _ h rfl) rfl

theorem privileged_of_range (port : Int) (h0 : 0 < port) (h1 : port < 1024) :
    privileged port = true := by
  have : port ≠ 0 := by omega
  simp [privileged, INPORT_ANY, this, h1]

/-- The bind loop of `inet_create_connection` on a privileged port: entered
with raised privileges, it is left with raised privileges, every `bind`
having been made with them and every sleep outside the region. -/
theorem create_bind_loop_priv (E : Env) (fd : Int) (addr : Nat) (port retry_bind : Int)
    (hp : privileged port = true) (fuel : Nat) :
    ∀ (i res hold : Int) (w : World), priv_at w .elevated →
      ∀ r, create_bind_loop E fd addr port retry_bind fuel i res hold w = some r →
        priv_at r.2.2 .elevated := by
  induction fuel with
  | zero => intro i res hold w _ r h; simp [create_bind_loop] at h
  | succ fuel ih =>
    intro i res hold w hw r h
    rw [create_bind_loop] at h
    have hb := priv_at_syscall E .bind (.bind fd addr (port % 65536)) hw rfl
    simp only [hp, if_true] at h
    split_ifs at h
    · exact ih _ _ _ _ hb r h
    · cases h; exact hb
    · exact ih _ _ _ _ (priv_at_enter (priv_at_log (.timer_sleep 1) (priv_at_leave hb) rfl)) r h
    · cases h; exact hw

theorem create_after_bind_priv (E : Env) (c : conn_t) (fd port res : Int) (w : World)
    (hp : privileged port = true) (hw : priv_at w .elevated) :
    priv_at (create_after_bind E c fd port res w).world
      (create_after_bind E c fd port res w).priv_state := by
  have hl := priv_at_leave hw
  unfold create_after_bind create_finish
  simp only [hp, if_true]
  split_ifs
  · exact priv_at_log (.end_login 1) (priv_at_log .log_pri (priv_at_log .log_pri
      (priv_at_log .log_pri hl rfl) rfl) rfl) rfl
  · have hg := priv_at_syscall E .getsockname (.getsockname fd) hl rfl
    cases c.local_ipaddr <;> exact priv_at_log (.register_cleanup c.pool) (priv_at_same hg rfl) rfl
  · exact priv_at_log (.register_cleanup c.pool)
      (priv_at_syscall E .getsockname (.getsockname fd) hl rfl) rfl

theorem create_socket_priv (E : Env) (fuel : Nat) (c : conn_t) (bind_addr : Option Nat)
    (port retry_bind : Int) (w : World) (hp : privileged port = true)
    (hw : priv_at w .idle) :
    priv_at (create_socket E fuel c bind_addr port retry_bind w).world
      (create_socket E fuel c bind_addr port retry_bind w).priv_state := by
  unfold create_socket
  simp only [hp, if_true]
  generalize (match E.platform with
    | .solaris2 => true
    | .bsd => true
    | .other => false) = b
  -- the socket is created inside a bracket of its own, or outside any
  cases b <;> simp only [Bool.false_eq_true, if_false, if_true]
  · have hsb := priv_at_syscall E .socket (.socket w.tcp_proto) hw rfl
    split_ifs
    · exact priv_at_log (.end_login 1) (priv_at_log .log_pri hsb rfl) rfl
    · split
      · exact priv_at_enter (priv_at_log _ hsb rfl)
      · rename_i res hold w1 hloop
        refine create_after_bind_priv E c _ port res w1 hp
          (create_bind_loop_priv E _ _ port retry_bind hp fuel _ _ _ _ ?_ _ hloop)
        exact priv_at_enter (priv_at_log _ hsb rfl)
  · have hsb := priv_at_leave
      (priv_at_syscall E .socket (.socket (priv_enter w).tcp_proto) (priv_at_enter hw) rfl)
    split_ifs
    · exact priv_at_log (.end_login 1) (priv_at_log .log_pri hsb rfl) rfl
    · split
      · exact priv_at_enter (priv_at_log _ hsb rfl)
      · rename_i res hold w1 hloop
        refine create_after_bind_priv E c _ port res w1 hp
          (create_bind_loop_priv E _ _ port retry_bind hp fuel _ _ _ _ ?_ _ hloop)
        exact priv_at_enter (priv_at_log _ hsb rfl)

/-- The loop of `inet_prebind_socket` on a privileged port: entered with
raised privileges, it is left with raised privileges, every `bind` is made
inside the region and every sleep outside it. -/
theorem prebind_loop_priv (E : Env) (s : Int) (addr : Nat) (port : Int)
    (hp : privileged port = true) (fuel : Nat) :
    ∀ (tries res : Int) (w : World), priv_at w .elevated →
      priv_at (prebind_loop E s addr port fuel tries res w).2 .elevated := by
  induction fuel with
  | zero => intro tries res w hw; exact hw
  | succ n ih =>
    intro tries res w hw
    have hb := priv_at_syscall E .bind (.bind s addr (port % 65536)) hw rfl
    unfold prebind_loop
    simp only [hp, if_true]
    split_ifs
    · exact hb
    · exact hb
    · exact ih _ _ _ (priv_at_enter (priv_at_log (.timer_sleep tries) (priv_at_leave hb) rfl))
    · exact hw

theorem inet_prebind_socket_priv (E : Env) (bind_addr : Option Nat) (port : Int) (w : World)
    (hp : privileged port = true) (hw : priv_at w .idle) :
    priv_at (inet_prebind_socket E bind_addr port w).2 .idle := by
  unfold inet_prebind_socket
  simp only [hp, if_true, Bool.and_true]
  generalize decide (E.platform = .solaris2) = b
  cases b <;> simp only [Bool.false_eq_true, if_false, if_true]
  · have hsb := priv_at_syscall E .socket (.socket 0) hw rfl
    split_ifs
    · exact hsb
    · refine priv_at_same (priv_at_leave (prebind_loop_priv E _ _ port hp 10 1 (-1) _ ?_)) rfl
      exact priv_at_enter (priv_at_log _ hsb rfl)
  · have hsb := priv_at_leave (priv_at_syscall E .socket (.socket 0) (priv_at_enter hw) rfl)
    split_ifs
    · exact hsb
    · refine priv_at_same (priv_at_leave (prebind_loop_priv E _ _ port hp 10 1 (-1) _ ?_)) rfl
      exact priv_at_enter (priv_at_log _ hsb rfl)

theorem CHECK_INET_POOL_priv (w : World) (hw : priv_at w .idle) :
    priv_at (CHECK_INET_POOL w).2 .idle := by
  unfold CHECK_INET_POOL
  split
  · exact hw
  · exact priv_at_same (priv_at_log (.register_cleanup _) (priv_at_same hw rfl) rfl) rfl

theorem inet_create_connection_priv (E : Env) (fuel : Nat) (p : Nat)
    (servers : Option (List server_rec)) (fd : Int) (bind_addr : Option Nat)
    (port retry_bind : Int) (w : World) (hp : privileged port = true)
    (hw : priv_at w .idle) :
    priv_at (inet_create_connection E fuel p servers fd bind_addr port retry_bind w).world
      (inet_create_connection E fuel p servers fd bind_addr port retry_bind w).priv_state := by
  have h0 := CHECK_INET_POOL_priv w hw
  unfold inet_create_connection
  simp only []
  split_ifs
  · exact h0
  · split
    · exact priv_at_same h0 rfl
    · exact create_socket_priv E fuel _ bind_addr port retry_bind _ hp (priv_at_same h0 rfl)
  · split
    · exact priv_at_same h0 rfl
    · exact priv_at_log (.register_cleanup _) (priv_at_same h0 rfl) rfl

/-- C12: on a privileged port (0 < port < 1024), whatever the system calls
answer, the trace of `inet_create_connection` and that of
`inet_prebind_socket`, started outside the privileged region, run through the
automaton `priv_step` without a violation: the bracket events come in the
order `block_signals`, `PRIVS_ROOT`, `PRIVS_RELINQUISH`, `unblock_signals`,
no region is entered twice, every `bind` is made with raised privileges and
signals blocked, every `timer_sleep` and `end_login` outside the region.
Every exit of `inet_create_connection` (return, NULL return, fatal exit) and
the return of `inet_prebind_socket` is outside the region; only a bind loop
that is still being interrupted when the fuel runs out is inside it. -/
theorem privilege_bracket (E : Env) (fuel : Nat) (p : Nat) (servers : Option (List server_rec))
    (fd : Int) (bind_addr : Option Nat) (port retry_bind : Int) (w : World)
    (hp0 : 0 < port) (hp1 : port < 1024) (hw : priv_at w .idle) :
    priv_at (inet_create_connection E fuel p servers fd bind_addr port retry_bind w).world
        (inet_create_connection E fuel p servers fd bind_addr port retry_bind w).priv_state ∧
      priv_at (inet_prebind_socket E bind_addr port w).2 .idle :=
  ⟨inet_create_connection_priv E fuel p servers fd bind_addr port retry_bind w
      (privileged_of_range port hp0 hp1) hw,
   inet_prebind_socket_priv E bind_addr port w (privileged_of_range port hp0 hp1) hw⟩

/-- C12 at concrete inputs: port 21 with three address conflicts before the
bind succeeds; both functions return outside the privileged region. -/
theorem privilege_bracket_witness :
    priv_at (inet_create_connection (env_failing .bind 3 EADDRINUSE) 11 0 none (-1) none 21 1
        World.init).world .idle ∧
      priv_at (inet_prebind_socket (env_failing .bind 3 EADDRINUSE) none 21 World.init).2 .idle :=
  privilege_bracket (env_failing .bind 3 EADDRINUSE) 11 0 none (-1) none 21 1 World.init
    (by decide) (by decide) rfl

/-- C13, evaluated where the code departs from it: `inet_setnonblock` on an
open connection with read descriptor 5 and write descriptor 6, both with
flags `O_RDWR` (2) and every `fcntl` succeeding.  The read descriptor gets
`F_SETFL` with `O_NONBLOCK`; on the write descriptor the second call is
`F_GETFL` again, so no `F_SETFL` reaches it, its flags stay without
`O_NONBLOCK`, and the value returned is the flag word 2 that `F_GETFL`
answers, not the status 0 of a set operation.  `inet_setblock` on the same
connection issues `F_SETFL` on both descriptors and returns 0. -/
theorem setnonblock_write_side :
    (inet_setnonblock (env_failing .bind 0 0) conn_on_5_6 World.init).2.trace =
        [.fcntl_getfl 5, .fcntl_setfl 5 2050, .fcntl_getfl 6, .fcntl_getfl 6] ∧
      flags_after 5 2 (inet_setnonblock (env_failing .bind 0 0) conn_on_5_6 World.init).2.trace
          &&& O_NONBLOCK = O_NONBLOCK ∧
      flags_after 6 2 (inet_setnonblock (env_failing .bind 0 0) conn_on_5_6 World.init).2.trace
          &&& O_NONBLOCK = 0 ∧
      (inet_setnonblock (env_failing .bind 0 0) conn_on_5_6 World.init).1 = 2 ∧
      (inet_setblock (env_failing .bind 0 0) conn_on_5_6 World.init).2.trace =
        [.fcntl_getfl 5, .fcntl_setfl 5 2, .fcntl_getfl 6, .fcntl_setfl 6 2] ∧
      (inet_setblock (env_failing .bind 0 0) conn_on_5_6 World.init).1 = 0 := by
  decide

/-- What `inet_connect_nowait` does for the answer of `connect`, whatever
mode the connection is in: success gives 1 and `CM_OPEN`, a connection in
progress gives 0 and `CM_CONNECT`, any other error gives -1 and `CM_ERROR`. -/
theorem connect_nowait_spec (E : Env) (c : conn_t) (addr : Nat) (port : Int) (w : World) :
    (∀ v, v ≠ -1 → E.sys .connect (w.calls .connect) = .ok v →
      (inet_connect_nowait E c addr port w).1 = 1 ∧
      (inet_connect_nowait E c addr port w).2.1.mode = CM_OPEN) ∧
    (∀ e, e = EINPROGRESS ∨ e = EALREADY → E.sys .connect (w.calls .connect) = .fail e →
      (inet_connect_nowait E c addr port w).1 = 0 ∧
      (inet_connect_nowait E c addr port w).2.1.mode = CM_CONNECT) ∧
    (∀ e, e ≠ EINPROGRESS → e ≠ EALREADY → E.sys .connect (w.calls .connect) = .fail e →
      (inet_connect_nowait E c addr port w).1 = -1 ∧
      (inet_connect_nowait E c addr port w).2.1.mode = CM_ERROR) := by
  have hc := setnonblock_calls E c w .connect (by decide)
  refine ⟨fun v hv h => ?_, fun e he h => ?_, fun e h1 h2 h => ?_⟩
  · rw [← hc] at h
    have g := (get_conn_info_frame E { c with mode := CM_OPEN } c.listen_fd
      { (inet_setnonblock E c w).2 with
          calls := fun j => if j = Sys.connect then (inet_setnonblock E c w).2.calls .connect + 1
            else (inet_setnonblock E c w).2.calls j,
          trace := (inet_setnonblock E c w).2.trace ++
            [.connect c.listen_fd addr (port % 65536)] }).1
    unfold inet_connect_nowait
    simp only [syscall_ok E _ .connect _ _ h]
    simp only [beq_iff_eq, hv, if_false]
    exact ⟨trivial, g⟩
  · rw [← hc] at h
    unfold inet_connect_nowait
    rcases he with he | he <;> subst he <;>
      simp [syscall_fail E _ .connect _ _ h, EINPROGRESS, EALREADY]
  · rw [← hc] at h
    unfold inet_connect_nowait
    simp [syscall_fail E _ .connect _ _ h, h1, h2]

/-- When a remote name or address can be had, `inet_openrw` returns, and the
connection it returns is in mode `CM_OPEN`. -/
theorem openrw_returns (E : Env) (pool : Nat) (c : conn_t) (addr : Option Nat)
    (fd rfd wfd resolve : Int) (w : World)
    (hname : addr.isSome ∨ c.remote_name.isSome ∨ c.remote_ipaddr.isSome ∨
      ∃ a b, a ≠ -1 ∧ b ≠ -1 ∧ E.sys .getsockname (w.calls .getsockname) = .ok a ∧
        E.sys .getpeername (w.calls .getpeername) = .ok b) :
    ∃ res w1, inet_openrw E pool c addr fd rfd wfd resolve w = .ret res w1 ∧
      res.mode = CM_OPEN := by
  obtain ⟨res0, w0, h0, _⟩ := openrw_remote_ret E pool c addr fd resolve w hname
  exact ⟨_, _, by rw [inet_openrw, h0], (openrw_streams_spec E _ _).2.2.2⟩

/-- What `inet_accept` does for the answer of `accept`, whatever mode the
listener is in: an error `e` leaves it in `CM_ERROR` with `xerrno = e` and
returns NULL; a descriptor leaves it in `CM_OPEN` and returns the connection
`inet_openrw` builds. -/
theorem accept_spec (E : Env) (pool : Nat) (c : conn_t) (rfd wfd resolve : Int) (w : World) :
    (∀ e, E.sys .accept (w.calls .accept) = .fail e →
      ∃ w1, inet_accept E pool c rfd wfd resolve w =
        .ret ({ c with mode := CM_ERROR, xerrno := e }, none) w1) ∧
    (∀ v, v ≠ -1 → E.sys .accept (w.calls .accept) = .ok v →
      (c.remote_name.isSome ∨ c.remote_ipaddr.isSome ∨
        ∃ a b, a ≠ -1 ∧ b ≠ -1 ∧ E.sys .getsockname (w.calls .getsockname) = .ok a ∧
          E.sys .getpeername (w.calls .getpeername) = .ok b) →
      ∃ res w1, inet_accept E pool c rfd wfd resolve w =
          .ret ({ c with mode := CM_OPEN }, some res) w1 ∧ res.mode = CM_OPEN) := by
  refine ⟨fun e h => ?_, fun v hv h hname => ?_⟩
  · unfold inet_accept
    simp only [syscall_fail E w .accept _ _ h]
    exact ⟨_, rfl⟩
  · obtain ⟨res, w1, h1, h2⟩ := openrw_returns E pool { c with mode := CM_OPEN } none v rfd wfd
      resolve
      { w with calls := fun j => if j = Sys.accept then w.calls .accept + 1 else w.calls j,
               trace := w.trace ++ [.accept c.listen_fd] }
      (Or.inr (by
        rcases hname with h | h | ⟨a, b, ha, hb, ea, eb⟩
        · exact Or.inl h
        · exact Or.inr (Or.inl h)
        · exact Or.inr (Or.inr ⟨a, b, ha, hb, ea, eb⟩)))
    unfold inet_accept
    simp only [syscall_ok E w .accept _ _ h]
    have hb : (v != -1) = true := by simpa using hv
    simp only [hb, if_true, h1]
    exact ⟨res, w1, rfl, h2⟩

/-- C14, as stated, fails; none of the four functions looks at the mode it is
called in.  `inet_connect` on the open connection that `inet_openrw` leaves
(`listen_fd` is -1, so `connect` fails with `EBADF`) returns -1 but leaves
the connection in `CM_ERROR`, not in `CM_OPEN`.  `inet_connect_nowait` on a
connection in `CM_ERROR` after a refused attempt on socket 3, with `connect`
now answering `EINPROGRESS`, returns 0 and leaves it in `CM_CONNECT`, entered
from `CM_ERROR`.  `inet_accept` on the listener in mode `CM_ERROR`, with
`accept` succeeding, returns a connection and leaves the listener in
`CM_OPEN`. -/
theorem mode_guard_counterexample :
    ¬ (∀ (E : Env) (fuel : Nat) (c c1 : conn_t) (addr : Nat) (port r : Int) (w w1 : World),
        c.mode ≠ CM_NONE → inet_connect E fuel c addr port w = .ret (r, c1) w1 →
        r = -1 ∧ c1.mode = c.mode) ∧
    ¬ (∀ (E : Env) (c : conn_t) (addr : Nat) (port : Int) (w : World),
        (inet_connect_nowait E c addr port w).2.1.mode = CM_CONNECT →
        c.mode = CM_NONE ∨ c.mode = CM_CONNECT) ∧
    ¬ (∀ (E : Env) (pool : Nat) (c c1 : conn_t) (rfd wfd resolve : Int) (res : Option conn_t)
        (w w1 : World),
        c.mode ≠ CM_LISTEN → inet_accept E pool c rfd wfd resolve w = .ret (c1, res) w1 →
        res = none ∧ c1.mode = c.mode) := by
  refine ⟨fun h => ?_, fun h => ?_, fun h => ?_⟩
  · obtain ⟨c1, w1, h1, h2, _⟩ := connect_spec (env_failing .connect 1 EBADF) 1 conn_on_3
      2130706433 21 World.init 0 (.fail EBADF) (by decide) (by simp)
      (fun j hj => absurd hj (by omega)) rfl (by decide)
    have h3 := (h _ _ _ _ _ _ _ _ _ (by decide) h1).2
    rw [h2] at h3
    exact absurd h3 (by decide)
  · have h2 := ((connect_nowait_spec (env_failing .connect 1 EINPROGRESS) connector_in_error
      2130706433 21 World.init).2.1 EINPROGRESS (Or.inl rfl) rfl).2
    exact absurd (h _ _ _ _ _ h2) (by decide)
  · obtain ⟨res, w1, h1, _⟩ := (accept_spec (env_failing .bind 0 0) 0 listener_in_error (-1) (-1)
      0 World.init).2 4 (by decide) rfl
      (Or.inr (Or.inr ⟨0, 0, by decide, by decide, rfl, rfl⟩))
    exact absurd (h _ _ _ _ _ _ _ _ _ _ (by decide) h1).1 (by simp)

/-- C14 (amended): the four functions change the mode from the answer of the
system call alone, for a connection `c` in any mode.  `inet_connect`, after
any number of interruptions, returns 1 with `CM_OPEN` on success and -1 with
`CM_ERROR` on an error.  `inet_connect_nowait` returns 1 with `CM_OPEN` on
success, 0 with `CM_CONNECT` on `EINPROGRESS` or `EALREADY`, -1 with
`CM_ERROR` on any other error.  `inet_accept_nowait` returns -1 with
`CM_LISTEN` when no client is pending, -1 with `CM_ERROR` on any other error,
and the new descriptor with `CM_ACCEPT` on success.  `inet_accept` returns
NULL with the listener in `CM_ERROR` on an error; on success, when the
address of the peer can be had (the listener carries a remote name or
address, or `getsockname` and `getpeername` succeed on the new socket), it
returns a new connection in `CM_OPEN` with the listener in `CM_OPEN`. -/
theorem mode_changes (E : Env) (c : conn_t) (w : World) :
    (∀ (k fuel addr : Nat) (port : Int) (r : SysRes), k < fuel →
      r ≠ .fail EINTR → r ≠ .ok (-1) →
      (∀ j, j < k → E.sys .connect (w.calls .connect + j) = .fail EINTR) →
      E.sys .connect (w.calls .connect + k) = r →
      ∃ c1 w1, inet_connect E fuel c addr port w = .ret (connect_status r, c1) w1 ∧
        c1.mode = connect_mode r) ∧
    (∀ (addr : Nat) (port : Int),
      (∀ v, v ≠ -1 → E.sys .connect (w.calls .connect) = .ok v →
        (inet_connect_nowait E c addr port w).1 = 1 ∧
        (inet_connect_nowait E c addr port w).2.1.mode = CM_OPEN) ∧
      (∀ e, e = EINPROGRESS ∨ e = EALREADY → E.sys .connect (w.calls .connect) = .fail e →
        (inet_connect_nowait E c addr port w).1 = 0 ∧
        (inet_connect_nowait E c addr port w).2.1.mode = CM_CONNECT) ∧
      (∀ e, e ≠ EINPROGRESS → e ≠ EALREADY → E.sys .connect (w.calls .connect) = .fail e →
        (inet_connect_nowait E c addr port w).1 = -1 ∧
        (inet_connect_nowait E c addr port w).2.1.mode = CM_ERROR)) ∧
    ((E.sys .accept (w.calls .accept) = .fail EWOULDBLOCK →
        (inet_accept_nowait E c w).1 = -1 ∧ (inet_accept_nowait E c w).2.1.mode = CM_LISTEN) ∧
      (∀ e, e ≠ EWOULDBLOCK → E.sys .accept (w.calls .accept) = .fail e →
        (inet_accept_nowait E c w).1 = -1 ∧ (inet_accept_nowait E c w).2.1.mode = CM_ERROR) ∧
      (∀ fd, fd ≠ -1 → E.sys .accept (w.calls .accept) = .ok fd →
        (inet_accept_nowait E c w).1 = fd ∧ (inet_accept_nowait E c w).2.1.mode = CM_ACCEPT)) ∧
    (∀ (pool : Nat) (rfd wfd resolve : Int),
      (∀ e, E.sys .accept (w.calls .accept) = .fail e →
        ∃ w1, inet_accept E pool c rfd wfd resolve w =
          .ret ({ c with mode := CM_ERROR, xerrno := e }, none) w1) ∧
      (∀ v, v ≠ -1 → E.sys .accept (w.calls .accept) = .ok v →
        (c.remote_name.isSome ∨ c.remote_ipaddr.isSome ∨
          ∃ a b, a ≠ -1 ∧ b ≠ -1 ∧ E.sys .getsockname (w.calls .getsockname) = .ok a ∧
            E.sys .getpeername (w.calls .getpeername) = .ok b) →
        ∃ res w1, inet_accept E pool c rfd wfd resolve w =
            .ret ({ c with mode := CM_OPEN }, some res) w1 ∧ res.mode = CM_OPEN)) := by
  have hcalls : (if c.mode = CM_LISTEN then (inet_setnonblock E c w).2 else w).calls .accept =
      w.calls .accept := by
    split_ifs
    · exact setnonblock_calls E c w .accept (by decide)
    · rfl
  refine ⟨?_, fun addr port => connect_nowait_spec E c addr port w, ⟨?_, ?_, ?_⟩,
    fun pool rfd wfd resolve => accept_spec E pool c rfd wfd resolve w⟩
  · intro k fuel addr port r hfuel hr hr1 hk hrk
    obtain ⟨c1, w1, h1, h2, _⟩ := connect_spec E fuel c addr port w k r hr hr1 hk hrk hfuel
    exact ⟨c1, w1, h1, h2⟩
  · intro h
    rw [← hcalls] at h
    unfold inet_accept_nowait
    simp [syscall_fail E _ .accept _ _ h]
  · intro e he h
    rw [← hcalls] at h
    unfold inet_accept_nowait
    simp [syscall_fail E _ .accept _ _ h, he]
  · intro fd hfd h
    rw [← hcalls] at h
    unfold inet_accept_nowait
    simp [syscall_ok E _ .accept _ _ h, hfd]

/-- C14 (amended) at concrete inputs, none of them in the mode the diagram
asks for: `inet_connect` on a connection in `CM_ERROR` returns 1 and leaves
`CM_OPEN`; `inet_connect_nowait` on it, the connection being in progress,
returns 0 and leaves `CM_CONNECT`; `inet_accept_nowait` on a listener in
`CM_ERROR` returns the new descriptor 4 and leaves `CM_ACCEPT`; `inet_accept`
on it returns a connection and leaves the listener in `CM_OPEN`. -/
theorem mode_changes_witness :
    (∃ c1 w1, inet_connect (env_failing .bind 0 0) 1 connector_in_error 2130706433 21
        World.init = .ret (1, c1) w1 ∧ c1.mode = CM_OPEN) ∧
    ((inet_connect_nowait (env_failing .connect 1 EINPROGRESS) connector_in_error 2130706433 21
        World.init).1 = 0 ∧
      (inet_connect_nowait (env_failing .connect 1 EINPROGRESS) connector_in_error 2130706433 21
        World.init).2.1.mode = CM_CONNECT) ∧
    ((inet_accept_nowait (env_failing .bind 0 0) listener_in_error World.init).1 = 4 ∧
      (inet_accept_nowait (env_failing .bind 0 0) listener_in_error World.init).2.1.mode =
        CM_ACCEPT) ∧
    (∃ res w1, inet_accept (env_failing .bind 0 0) 0 listener_in_error (-1) (-1) 0 World.init =
        .ret ({ listener_in_error with mode := CM_OPEN }, some res) w1 ∧ res.mode = CM_OPEN) :=
  ⟨(mode_changes (env_failing .bind 0 0) connector_in_error World.init).1 0 1 2130706433 21
      (.ok 0) (by decide) (by simp) (by simp) (fun j hj => absurd hj (by omega)) rfl,
   ((mode_changes (env_failing .connect 1 EINPROGRESS) connector_in_error World.init).2.1
      2130706433 21).2.1 EINPROGRESS (Or.inl rfl) rfl,
   (mode_changes (env_failing .bind 0 0) listener_in_error World.init).2.2.1.2.2 4
      (by decide) rfl,
   ((mode_changes (env_failing .bind 0 0) listener_in_error World.init).2.2.2 0 (-1) (-1) 0).2 4
      (by decide) rfl (Or.inr (Or.inr ⟨0, 0, by decide, by decide, rfl, rfl⟩))⟩

/-- C4, evaluated where the code departs from it: `inet_openrw` on the
listener on descriptor 3, which carries no remote address or name, with
`addr` NULL, no descriptor requested, `dup` succeeding, and the accepted
socket 4 a valid descriptor whose peer is gone, so that `getpeername` fails
with `ENOTCONN`.  `inet_get_conn_info` leaves `remote_ipaddr` NULL and the
source dereferences it in `inet_ntoa(*res->remote_ipaddr)` before it reaches
the descriptors: there is no result, descriptor 4 is neither duplicated nor
closed.  With `getpeername` succeeding the same call returns the duplicates 5
and 6 and closes 4. -/
theorem openrw_null_remote :
    (∃ w1, inet_openrw (env_failing .getpeername 1 ENOTCONN) 0 listener_on_3 none 4 (-1) (-1) 0
        World.init = .segv w1 ∧ fdcalls w1.trace = [] ∧ closes w1.trace = []) ∧
    (∃ res w1, inet_openrw (env_failing .getpeername 0 0) 0 listener_on_3 none 4 (-1) (-1) 0
        World.init = .ret res w1 ∧ res.rfd = 5 ∧ res.wfd = 6 ∧
        fdcalls w1.trace = [.dup 4, .dup 4, .close 4] ∧ closes w1.trace = [4]) := by
  refine ⟨⟨_, rfl, ?_, ?_⟩, ?_⟩
  · decide
  · decide
  · exact openrw_descriptors (env_failing .getpeername 0 0) 0 listener_on_3 none 4 (-1) (-1) 0
      5 6 World.init (by decide)
      (Or.inr (Or.inr (Or.inr ⟨0, 0, by decide, by decide, rfl, rfl⟩)))
      (fun _ => ⟨rfl, by decide⟩) (fun _ => ⟨rfl, by decide⟩)

end Inet
